import Mathlib

/-!
Verification development for the betterclaude-workers request-shaping and
retry core.  The definitions below are shallow embeddings of the TypeScript
sources:

* `src/unnamed/part_000` — retry orchestrator (`retryWithCleanup`), overload
  classifier (`isOverloadError`), dispatcher (`makeApiCall`);
* `src/src/retry-handler.ts` — targeted sanitizer (`removeOrphanedToolResult`);
* `src/src/claude-code-identity.ts` — orphan detector
  (`detectOrphanedToolError`) and identity constants;
* `src/src/request-normalizer.ts` (first revision, the one with the additive
  beta-flag merge) — `normalizeRequest` and its helpers;
* `src/src/streaming-handler.ts` — `isStreamingResponse`.

JavaScript dynamic values are modelled by the `Json` inductive (numbers as
integers; the bodies this core inspects contain no fractional literals).
`Headers` is modelled as an association list whose keys are understood in the
case-insensitive normal form used by the WHATWG `Headers` class; every header
name constant below is therefore written lowercase.  Exceptions thrown by the
JavaScript code and caught by its surrounding `try` blocks are modelled by
`Option`-valued extraction helpers; all Lean functions are total, which is the
model of "the classifier never throws".
-/

/-! ## Character and string helpers (JS `trim`, `split(',')`, `includes`) -/

def isWsChar (c : Char) : Bool :=
  c = ' ' || c = '\t' || c = '\n' || c = '\r' || c.val = 11 || c.val = 12

/-- Drop leading whitespace characters. -/
def dropLeadWs (l : List Char) : List Char := l.dropWhile isWsChar

/-- JS `String.prototype.trim` on a character list. -/
def trimChars (l : List Char) : List Char :=
  ((dropLeadWs l).reverse.dropWhile isWsChar).reverse

def trimStr (s : String) : String := String.mk (trimChars s.data)

/-- JS `String.prototype.split(',')` on a character list. -/
def splitCommaChars : List Char → List (List Char)
  | [] => [[]]
  | c :: rest =>
    if c = ',' then [] :: splitCommaChars rest
    else
      match splitCommaChars rest with
      | [] => [[c]]
      | seg :: segs => (c :: seg) :: segs

/-- JS `String.prototype.split(',')`. -/
def splitComma (s : String) : List String :=
  (splitCommaChars s.data).map String.mk

/-- Join with a comma separator (JS `Array.prototype.join(',')`). -/
def joinComma : List String → String
  | [] => ""
  | [s] => s
  | s :: rest => s ++ "," ++ joinComma rest

/-- Substring occurrence at some position of a character list. -/
def containsSub : List Char → List Char → Bool
  | l, pat =>
    match l with
    | [] => pat.isEmpty
    | _ :: rest => pat.isPrefixOf l || containsSub rest pat

/-- JS `String.prototype.includes` (substring containment). -/
def strContains (s pat : String) : Bool := containsSub s.data pat.data

/-- JS `String.prototype.toLowerCase` (ASCII case folding, as `Char.toLower`). -/
def strToLower (s : String) : String := String.mk (s.data.map Char.toLower)

/-- JS `String.prototype.startsWith`. -/
def strStartsWith (s pat : String) : Bool := pat.data.isPrefixOf s.data

/-- JS `\w` character class (ASCII word characters). -/
def isWordChar (c : Char) : Bool := c.isAlphanum || c = '_'

/-- Hex digit as used by the `[a-f0-9]` class of the user-id pattern. -/
def isHexLower (c : Char) : Bool := c.isDigit || ('a' ≤ c && c ≤ 'f')

/-! ## JSON values

JS objects keep key insertion order; assignment to an existing key keeps its
position, assignment to a new key appends, `delete` removes.  `lookupField`,
`setField` and `delField` model exactly that. -/

inductive Json where
  | null
  | bool (b : Bool)
  | num (n : Int)
  | str (s : String)
  | arr (elems : List Json)
  | obj (fields : List (String × Json))
deriving Repr

/-- First binding of a key in an object's field list. -/
def lookupField : List (String × Json) → String → Option Json
  | [], _ => none
  | (k, v) :: rest, q => if k = q then some v else lookupField rest q

/-- JS property assignment: replace the first binding in place, else append. -/
def setField : List (String × Json) → String → Json → List (String × Json)
  | [], q, v => [(q, v)]
  | (k, w) :: rest, q, v =>
    if k = q then (k, v) :: rest else (k, w) :: setField rest q v

/-- JS `delete obj[k]`. -/
def delField (fs : List (String × Json)) (q : String) : List (String × Json) :=
  fs.filter (fun kv => kv.1 ≠ q)

/-- JS truthiness of a JSON value. -/
def jsTruthy : Json → Bool
  | .null => false
  | .bool b => b
  | .num n => n ≠ 0
  | .str s => s ≠ ""
  | .arr _ => true
  | .obj _ => true

/-- JS truthiness of a possibly-absent JSON value (`undefined` is falsy). -/
def jsTruthyOpt : Option Json → Bool
  | none => false
  | some v => jsTruthy v

/-- Optional-chaining property access skipping nullish results:
`o?.k` yields `none` for a missing key, a `null` value, or a non-object. -/
def jsPropNN (j : Json) (k : String) : Option Json :=
  match j with
  | .obj fs =>
    match lookupField fs k with
    | some .null => none
    | some v => some v
    | none => none
  | _ => none

/-- `j?.k1?.k2` with nullish skipping. -/
def jsChain2 (j : Json) (k1 k2 : String) : Option Json :=
  match jsPropNN j k1 with
  | some v => jsPropNN v k2
  | none => none

/-! ### Serialization (JS `JSON.stringify`) -/

/-- Escape one character for a JSON string literal. -/
def escapeChar (c : Char) : String :=
  if c = '"' then "\\\""
  else if c = '\\' then "\\\\"
  else if c = '\n' then "\\n"
  else if c = '\t' then "\\t"
  else if c = '\r' then "\\r"
  else if c.val < 32 then
    "\\u00" ++ String.mk [Nat.digitChar (c.val.toNat / 16), Nat.digitChar (c.val.toNat % 16)]
  else String.mk [c]

def escapeStr (s : String) : String :=
  "\"" ++ String.join (s.data.map escapeChar) ++ "\""

mutual

/-- JS `JSON.stringify` (no spacing argument). -/
def Json.stringify : Json → String
  | .null => "null"
  | .bool true => "true"
  | .bool false => "false"
  | .num n => toString n
  | .str s => escapeStr s
  | .arr xs => "[" ++ stringifyElems xs ++ "]"
  | .obj fs => "\x7b" ++ stringifyFields fs ++ "\x7d"

def stringifyElems : List Json → String
  | [] => ""
  | [x] => Json.stringify x
  | x :: xs => Json.stringify x ++ "," ++ stringifyElems xs

def stringifyFields : List (String × Json) → String
  | [] => ""
  | [(k, v)] => escapeStr k ++ ":" ++ Json.stringify v
  | (k, v) :: fs => escapeStr k ++ ":" ++ Json.stringify v ++ "," ++ stringifyFields fs

end

/-! ## Conversation messages (types of `proactive-cleanup` / `retry-handler.ts`) -/

/-- A content block of a conversation message.  Only the fields the core
inspects are modelled; `tool_use_id` is the reference carried by
`tool_result` blocks and `id` the use-id carried by `tool_use` blocks. -/
structure ContentBlock where
  type : String
  id : Option String := none
  tool_use_id : Option String := none
deriving Repr, DecidableEq

structure Message where
  role : String
  content : List ContentBlock
deriving Repr, DecidableEq

/-- JS truthiness of an optional string property. -/
def jsTruthyStr : Option String → Bool
  | none => false
  | some s => s ≠ ""

/-- Embedding of `removeOrphanedToolResult` (src/unnamed/part_000:92-109 and
src/src/retry-handler.ts:44-61): `structuredClone` then filter each message's
content, dropping `tool_result` blocks whose truthy `tool_use_id` is in the
singleton set of the given id.  The Lean function is pure and total;
`structuredClone` is the identity of values. -/
def removeOrphanedToolResult (messages : List Message) (toolUseId : String) :
    List Message :=
  messages.map fun m =>
    { m with content := m.content.filter fun block =>
        if block.type = "tool_result" && jsTruthyStr block.tool_use_id then
          !(block.tool_use_id == some toolUseId)
        else true }

/-- Insert into an order-preserving set (JS `Set.prototype.add`). -/
def addUnique (l : List String) (x : String) : List String :=
  if x ∈ l then l else l ++ [x]

/-- Order-preserving deduplication, keeping first occurrences
(`new Set(list)` iterated in insertion order). -/
def dedupKeepFirst (l : List String) : List String := l.foldl addUnique []

structure CleanupResult where
  cleanedMessages : List Message
  removedIds : List String
  hadOrphans : Bool
deriving Repr

/-- Modelled from the spec: the scan-and-strip-all operation
`detectAndRemoveOrphanedToolResults` of module `proactive-cleanup`, whose
source file is absent from src/ (only its import in retry-handler.ts
remains).  Per spec 4.A: collect the set V of use-ids of all `tool_use`
blocks across all roles; collect the set O of `tool_use_id`s referenced by
`tool_result` blocks that are not in V; if O is empty return the input
unchanged with `hadOrphans = false`, else return a deep copy with every
`tool_result` block whose id is in O removed, reporting `removedIds = O`. -/
def detectAndRemoveOrphanedToolResults (messages : List Message) :
    CleanupResult :=
  let validIds : List String :=
    messages.foldl (fun acc m =>
      acc ++ m.content.filterMap fun b =>
        if b.type = "tool_use" then b.id else none) []
  let orphanIds : List String :=
    dedupKeepFirst <| messages.foldl (fun acc m =>
      acc ++ m.content.filterMap fun b =>
        if b.type = "tool_result" then
          match b.tool_use_id with
          | some i => if i ∈ validIds then none else some i
          | none => none
        else none) []
  if orphanIds = [] then
    { cleanedMessages := messages, removedIds := [], hadOrphans := false }
  else
    { cleanedMessages := messages.map fun m =>
        { m with content := m.content.filter fun b =>
            !(b.type = "tool_result" &&
              (match b.tool_use_id with
               | some i => i ∈ orphanIds
               | none => false)) },
      removedIds := orphanIds,
      hadOrphans := true }

/-! ## Upstream responses and the streaming gate -/

/-- An upstream HTTP response as the core observes it: status code, the two
headers the streaming gate reads, and the body text.  Reading the body of
this pure value models reading a `clone()` of the JS `Response`. -/
structure Response where
  status : Nat
  contentType : String := ""
  transferEncoding : String := ""
  body : String := ""
deriving Repr, DecidableEq

/-- Embedding of `isStreamingResponse` (src/src/streaming-handler.ts:19-24). -/
def isStreamingResponse (r : Response) : Bool :=
  strContains r.contentType "text/event-stream" ||
    strContains r.transferEncoding "chunked"

/-- JS `Response.ok`: status in the 2xx range. -/
def respOk (r : Response) : Bool := 200 ≤ r.status && r.status < 300

/-! ## Orphan-error pattern scanners

JS `String.prototype.matchAll` with the global regexes of
`detectOrphanedToolError` (src/src/claude-code-identity.ts:602,615).  The
scanner walks the string left to right; on a match it continues after the
match end (non-overlapping), otherwise it advances one character. -/

/-- The literal part of the Claude pattern up to and including `toolu_`. -/
def claudeLit : List Char :=
  "unexpected `tool_use_id` found in `tool_result` blocks: toolu_".data

/-- Scanner worker for the Claude pattern; `fuel` bounds the number of steps
and is structurally consumed so that the definition reduces in the kernel.
Every step consumes at least one character, so `fuel = l.length` never runs
out. -/
def scanClaudeGo : Nat → List Char → List String
  | 0, _ => []
  | _ + 1, [] => []
  | fuel + 1, c :: rest =>
    if claudeLit.isPrefixOf (c :: rest) then
      let after := (c :: rest).drop claudeLit.length
      let w := after.takeWhile isWordChar
      if w.isEmpty then scanClaudeGo fuel rest
      else ("toolu_" ++ String.mk w) :: scanClaudeGo fuel (after.drop w.length)
    else scanClaudeGo fuel rest

/-- All capture-group values of
``/unexpected `tool_use_id` found in `tool_result` blocks: (toolu_\w+)/g``. -/
def scanClaude (l : List Char) : List String := scanClaudeGo l.length l

/-- The literal head of the MiniMax pattern. -/
def minimaxLit : List Char := "tool result\x27s tool id(".data

/-- The literal tail of the MiniMax pattern after the closing parenthesis. -/
def minimaxTail : List Char := ") not found".data

/-- Scanner worker for the MiniMax pattern; fuel as in `scanClaudeGo`. -/
def scanMiniMaxGo : Nat → List Char → List String
  | 0, _ => []
  | _ + 1, [] => []
  | fuel + 1, c :: rest =>
    if minimaxLit.isPrefixOf (c :: rest) then
      let after := (c :: rest).drop minimaxLit.length
      let w := after.takeWhile (fun d => d ≠ ')')
      if w.isEmpty then scanMiniMaxGo fuel rest
      else if minimaxTail.isPrefixOf (after.drop w.length) then
        String.mk w :: scanMiniMaxGo fuel ((after.drop w.length).drop minimaxTail.length)
      else scanMiniMaxGo fuel rest
    else scanMiniMaxGo fuel rest

/-- All capture-group values of ``/tool result's tool id\(([^)]+)\) not found/g``. -/
def scanMiniMax (l : List Char) : List String := scanMiniMaxGo l.length l

/-! ## JSON parsing (JS `JSON.parse`)

Fuel-based recursive descent.  Numbers are parsed as integers (a fractional
or exponent literal fails the parse); the response bodies this core inspects
carry only string payloads, so this restriction does not affect any claim. -/

def skipWs (l : List Char) : List Char :=
  l.dropWhile fun c => c = ' ' || c = '\t' || c = '\n' || c = '\r'

/-- Parse the tail of a JSON string literal (after the opening quote). -/
def parseStringBody : List Char → Option (String × List Char)
  | [] => none
  | '"' :: rest => some ("", rest)
  | '\\' :: e :: rest =>
    let cont (c : Char) : Option (String × List Char) :=
      (parseStringBody rest).map fun (s, r) => (String.mk [c] ++ s, r)
    if e = '"' then cont '"'
    else if e = '\\' then cont '\\'
    else if e = '/' then cont '/'
    else if e = 'n' then cont '\n'
    else if e = 't' then cont '\t'
    else if e = 'r' then cont '\r'
    else if e = 'b' then cont (Char.ofNat 8)
    else if e = 'f' then cont (Char.ofNat 12)
    else if e = 'u' then
      match rest with
      | h1 :: h2 :: h3 :: h4 :: rest' =>
        let hex? (c : Char) : Option Nat :=
          if c.isDigit then some (c.toNat - 48)
          else if 'a' ≤ c && c ≤ 'f' then some (c.toNat - 87)
          else if 'A' ≤ c && c ≤ 'F' then some (c.toNat - 55)
          else none
        match hex? h1, hex? h2, hex? h3, hex? h4 with
        | some a, some b, some c, some d =>
          (parseStringBody rest').map fun (s, r) =>
            (String.mk [Char.ofNat (((a * 16 + b) * 16 + c) * 16 + d)] ++ s, r)
        | _, _, _, _ => none
      | _ => none
    else none
  | c :: rest =>
    if c.val < 32 then none
    else (parseStringBody rest).map fun (s, r) => (String.mk [c] ++ s, r)

/-- Parse a run of decimal digits into a natural number. -/
def parseDigits : List Char → Option (Nat × List Char)
  | l =>
    let ds := l.takeWhile Char.isDigit
    if ds.isEmpty then none
    else some (ds.foldl (fun acc c => acc * 10 + (c.toNat - 48)) 0, l.drop ds.length)

mutual

def parseVal : Nat → List Char → Option (Json × List Char)
  | 0, _ => none
  | fuel + 1, l =>
    match skipWs l with
    | '"' :: rest => (parseStringBody rest).map fun (s, r) => (Json.str s, r)
    | 't' :: 'r' :: 'u' :: 'e' :: rest => some (Json.bool true, rest)
    | 'f' :: 'a' :: 'l' :: 's' :: 'e' :: rest => some (Json.bool false, rest)
    | 'n' :: 'u' :: 'l' :: 'l' :: rest => some (Json.null, rest)
    | '[' :: rest =>
      (match skipWs rest with
       | ']' :: r => some (Json.arr [], r)
       | other => (parseElems fuel other).map fun (xs, r) => (Json.arr xs, r))
    | '\x7b' :: rest =>
      (match skipWs rest with
       | '\x7d' :: r => some (Json.obj [], r)
       | other => (parseFields fuel other).map fun (fs, r) => (Json.obj fs, r))
    | '-' :: rest =>
      (parseDigits rest).bind fun (n, r) =>
        match r with
        | '.' :: _ => none
        | 'e' :: _ => none
        | 'E' :: _ => none
        | _ => some (Json.num (-(n : Int)), r)
    | c :: rest =>
      if c.isDigit then
        (parseDigits (c :: rest)).bind fun (n, r) =>
          match r with
          | '.' :: _ => none
          | 'e' :: _ => none
          | 'E' :: _ => none
          | _ => some (Json.num (n : Int), r)
      else none
    | [] => none

def parseElems : Nat → List Char → Option (List Json × List Char)
  | 0, _ => none
  | fuel + 1, l =>
    (parseVal fuel l).bind fun (x, r) =>
      match skipWs r with
      | ',' :: r' => (parseElems fuel r').map fun (xs, r'') => (x :: xs, r'')
      | ']' :: r' => some ([x], r')
      | _ => none

def parseFields : Nat → List Char → Option (List (String × Json) × List Char)
  | 0, _ => none
  | fuel + 1, l =>
    match skipWs l with
    | '"' :: rest =>
      (parseStringBody rest).bind fun (k, r) =>
        match skipWs r with
        | ':' :: r' =>
          (parseVal fuel r').bind fun (v, r'') =>
            match skipWs r'' with
            | ',' :: r3 => (parseFields fuel r3).map fun (fs, r4) => ((k, v) :: fs, r4)
            | '\x7d' :: r3 => some ([(k, v)], r3)
            | _ => none
        | _ => none
    | _ => none

end

/-- JS `JSON.parse`: `none` models a thrown `SyntaxError`. -/
def Json.parse (s : String) : Option Json :=
  match parseVal (s.length * 2 + 2) s.data with
  | some (j, rest) => if skipWs rest = [] then some j else none
  | none => none

/-! ## Error classifiers -/

structure ErrorInfo where
  isError : Bool
  orphanedIds : List String
  provider : Option String
deriving Repr, DecidableEq

def noErrorInfo : ErrorInfo := { isError := false, orphanedIds := [], provider := none }

/-- The error message as read by `detectOrphanedToolError`:
`errorData?.error?.message || ''`.  `none` models the `TypeError` thrown by
`matchAll` when the extracted value is truthy but not a string (caught by the
surrounding `try`, yielding the non-error result). -/
def detectErrMessage (j : Json) : Option String :=
  match jsChain2 j "error" "message" with
  | some (.str s) => some s
  | some v => if jsTruthy v then none else some ""
  | none => some ""

/-- Embedding of `detectOrphanedToolError`
(src/src/claude-code-identity.ts:570-641): for a 400 response, parse the
cloned body as JSON, extract `.error.message`, try the Claude pattern first
and the MiniMax pattern only when the Claude pattern has no match. -/
def detectOrphanedToolError (r : Response) : ErrorInfo :=
  if r.status ≠ 400 then noErrorInfo
  else
    match Json.parse r.body with
    | none => noErrorInfo
    | some errorData =>
      match detectErrMessage errorData with
      | none => noErrorInfo
      | some errorMessage =>
        let claudeMatches := scanClaude errorMessage.data
        if claudeMatches.length > 0 then
          { isError := true, orphanedIds := claudeMatches, provider := some "claude" }
        else
          let minimaxMatches := scanMiniMax errorMessage.data
          if minimaxMatches.length > 0 then
            { isError := true, orphanedIds := minimaxMatches, provider := some "minimax" }
          else noErrorInfo

/-- The message inspected by `isOverloadError`:
`parsed?.error?.message ?? parsed?.message ?? text` (nullish coalescing).
`none` models the `TypeError` thrown by `toLowerCase` on a non-string
non-nullish value (caught, yielding `false`). -/
def overloadMessage (parsed : Option Json) (text : String) : Option String :=
  match parsed with
  | none => some text
  | some j =>
    match jsChain2 j "error" "message" with
    | some (.str s) => some s
    | some _ => none
    | none =>
      match jsPropNN j "message" with
      | some (.str s) => some s
      | some _ => none
      | none => some text

/-- The Chinese "load limit reached" phrase
(U+8D1F U+8F7D U+5DF2 U+7ECF U+8FBE U+5230 U+4E0A U+9650). -/
def chineseOverloadPhrase : String :=
  "负载已经达到上限"

/-- Embedding of `isOverloadError` (src/unnamed/part_000:37-65).  The body is
read from a clone in the source; here the body is a pure value.  Statuses
500, 529, 503; message extracted via JSON parse with raw-text fallback;
case-insensitive pattern match. -/
def isOverloadError (r : Response) : Bool :=
  if r.status ≠ 500 && r.status ≠ 529 && r.status ≠ 503 then false
  else
    let text := r.body
    if text = "" then false
    else
      match overloadMessage (Json.parse text) text with
      | none => false
      | some message =>
        let lower := strToLower message
        strContains message chineseOverloadPhrase ||
          strContains lower "overload" ||
          strContains lower "rate limit" ||
          strContains lower "capacity" ||
          strContains lower "too many requests"

/-- Formalization of the spec sentence for claim C2, written from the spec's
words: overload iff the status is one of 500, 503, 529 and the message —
`.error.message`, else `.message` when the body parses as JSON, else the raw
body text — case-insensitively matches one of the five patterns (the Chinese
phrase carries no letter case and is checked on the message as given). -/
def isOverloadErrorSpec (r : Response) : Bool :=
  [500, 503, 529].contains r.status &&
    (match overloadMessage (Json.parse r.body) r.body with
     | none => false
     | some message =>
       strContains message chineseOverloadPhrase ||
         ["overload", "rate limit", "capacity", "too many requests"].any
           (fun pat => strContains (strToLower message) pat))

/-! ## Retry orchestrator (src/unnamed/part_000)

The upstream is modelled as an oracle `upstream : Nat → Response` giving the
response to the k-th dispatch of the invocation (0-indexed).  The orchestrator
returns, besides the response and metadata of the source, the trace of
dispatched body texts and sleeps, which the source performs as effects. -/

/-- Maximum number of retries for upstream 500 overload errors
(src/unnamed/part_000:24). -/
def MAX_OVERLOAD_RETRIES : Nat := 2

structure RetryMetadata where
  removedToolUseIds : List String
  proactiveRemovedIds : List String
  retryCount : Nat
  result : String
deriving Repr, DecidableEq

/-- The orchestrator's view of a parsed request body: the `messages` array
(typed, as in `proactive-cleanup`) and an opaque serialization of the
remaining fields. -/
structure OrcBody where
  messages : List Message
  rest : String := ""
deriving Repr, DecidableEq

def encodeBlock (b : ContentBlock) : String :=
  "\x7b\"type\":" ++ escapeStr b.type ++
    (match b.id with | some i => ",\"id\":" ++ escapeStr i | none => "") ++
    (match b.tool_use_id with
     | some i => ",\"tool_use_id\":" ++ escapeStr i
     | none => "") ++ "\x7d"

def encodeMessage (m : Message) : String :=
  "\x7b\"role\":" ++ escapeStr m.role ++ ",\"content\":[" ++
    joinComma (m.content.map encodeBlock) ++ "]\x7d"

/-- `JSON.stringify(body)` for the orchestrator's body. -/
def encodeOrcBody (b : OrcBody) : String :=
  "\x7b\"messages\":[" ++ joinComma (b.messages.map encodeMessage) ++ "]" ++
    b.rest ++ "\x7d"

/-- Outcome of `JSON.parse` on the request body as the orchestrator sees it:
not JSON at all, JSON but not an object (or falsy), or an object whose
`messages` field (defaulted to `[]` by `body.messages || []`) is extracted. -/
inductive ParseOutcome where
  | notJson
  | nonObject
  | objectBody (b : OrcBody)
deriving Repr, DecidableEq

/-- The overload retry loop of `retryWithCleanup`
(src/unnamed/part_000:200-208), entered when the initial response classified
as overload.  `remaining` is the number of loop iterations still allowed
(`maxR + 1 - attempt`, consumed structurally), `attempt` the loop counter,
`idx` the index of the next dispatch, `prev` the response of the previous
dispatch.  Returns the final response, the final `metadata.retryCount`, the
next dispatch index, and the list of back-off sleeps (ms) in order. -/
def overloadLoopGo (upstream : Nat → Response) :
    Nat → Nat → Nat → Response → Response × Nat × Nat × List Nat
  | 0, attempt, idx, prev => (prev, attempt - 1, idx, [])
  | remaining + 1, attempt, idx, _prev =>
    let ms := 1000 * 2 ^ (attempt - 1)
    let resp := upstream idx
    if isOverloadError resp then
      let (r, rc, idx', sl) := overloadLoopGo upstream remaining (attempt + 1) (idx + 1) resp
      (r, rc, idx', ms :: sl)
    else (resp, attempt, idx + 1, [ms])

/-- Dispatch 1 followed by the overload phase (source steps 2 and 2.5):
the initial call is dispatch index 0; the loop runs only when the initial
response is an overload. -/
def overloadPhase (upstream : Nat → Response) : Response × Nat × Nat × List Nat :=
  let r0 := upstream 0
  if isOverloadError r0 then
    overloadLoopGo upstream MAX_OVERLOAD_RETRIES 1 1 r0
  else (r0, 0, 1, [])

/-- Result of the orchestrator plus the effect trace. -/
structure OrcOutcome where
  response : Response
  metadata : RetryMetadata
  dispatched : List String
  sleeps : List Nat
deriving Repr, DecidableEq

/-- Outcome labelling shared by the streaming and `ok` exits
(src/unnamed/part_000:213-219 and 226-232). -/
def labelOutcome (retryCount : Nat) (hadProactiveCleanup : Bool) : String :=
  if retryCount > 0 then "retry_success"
  else if hadProactiveCleanup then "proactive_success"
  else "success"

/-- Embedding of `retryWithCleanup` (src/unnamed/part_000:126-283) on the
`providedBody` path used by proxy.ts: `text` is the raw body text and
`parsed` the outcome of `JSON.parse` on it.  The upstream oracle stands for
`makeApiCall`; each dispatch appends the body text it sends to `dispatched`
(after deleting `content-length`, which has no body effect), and each
`sleep(ms)` appends to `sleeps`. -/
def retryWithCleanup (upstream : Nat → Response) (bodyText : String)
    (parsed : ParseOutcome) : OrcOutcome :=
  match parsed with
  | .notJson =>
    { response := upstream 0,
      metadata := { removedToolUseIds := [], proactiveRemovedIds := [],
                    retryCount := 0, result := "success" },
      dispatched := [bodyText], sleeps := [] }
  | .nonObject =>
    { response := upstream 0,
      metadata := { removedToolUseIds := [], proactiveRemovedIds := [],
                    retryCount := 0, result := "success" },
      dispatched := [bodyText], sleeps := [] }
  | .objectBody b =>
    let cleanupResult := detectAndRemoveOrphanedToolResults b.messages
    let messages := cleanupResult.cleanedMessages
    let body1 : OrcBody := { b with messages := messages }
    let cleanedBodyText := encodeOrcBody body1
    let hadProactiveCleanup := cleanupResult.hadOrphans
    let (resp, rc, idx, sleeps) := overloadPhase upstream
    let dispatchedSoFar := List.replicate idx cleanedBodyText
    if isStreamingResponse resp then
      { response := resp,
        metadata := { removedToolUseIds := [],
                      proactiveRemovedIds := cleanupResult.removedIds,
                      retryCount := rc,
                      result := labelOutcome rc hadProactiveCleanup },
        dispatched := dispatchedSoFar, sleeps := sleeps }
    else if respOk resp then
      { response := resp,
        metadata := { removedToolUseIds := [],
                      proactiveRemovedIds := cleanupResult.removedIds,
                      retryCount := rc,
                      result := labelOutcome rc hadProactiveCleanup },
        dispatched := dispatchedSoFar, sleeps := sleeps }
    else
      let repaired :=
        if r400 : resp.status = 400 then
          let errorInfo := detectOrphanedToolError resp
          if herr : errorInfo.isError = true ∧ errorInfo.orphanedIds ≠ [] then
            let lastOrphanId := errorInfo.orphanedIds.head (by exact herr.2)
            let messages2 := removeOrphanedToolResult messages lastOrphanId
            let body2 : OrcBody := { body1 with messages := messages2 }
            let retryBodyText := encodeOrcBody body2
            let retryResponse := upstream idx
            let md : RetryMetadata :=
              { removedToolUseIds := errorInfo.orphanedIds,
                proactiveRemovedIds := cleanupResult.removedIds,
                retryCount := rc + 1,
                result :=
                  if isStreamingResponse retryResponse then "retry_success"
                  else if respOk retryResponse then "retry_success"
                  else "success" }
            some { response := retryResponse, metadata := md,
                   dispatched := dispatchedSoFar ++ [retryBodyText],
                   sleeps := sleeps ++ [100] }
          else none
        else none
      match repaired with
      | some out => out
      | none =>
        { response := resp,
          metadata := { removedToolUseIds := [],
                        proactiveRemovedIds := cleanupResult.removedIds,
                        retryCount := rc,
                        result := if rc > 0 then "retry_success" else "success" },
          dispatched := dispatchedSoFar, sleeps := sleeps }

/-- Header transformation of `makeApiCall` (src/unnamed/part_000:70-87):
never forward a stale `content-length`. -/
def makeApiCallHeaders (h : List (String × String)) : List (String × String) :=
  h.filter (fun kv => kv.1 ≠ "content-length")

/-! ## Header map (WHATWG `Headers`)

Association list whose keys stand for the case-insensitively normalized
header names; all name constants below are written in that normal form. -/

def HMap := List (String × String)
deriving instance Repr, DecidableEq for HMap

def hget : HMap → String → Option String
  | [], _ => none
  | (k, v) :: rest, q => if k = q then some v else hget rest q

def hset : HMap → String → String → HMap
  | [], q, v => [(q, v)]
  | (k, w) :: rest, q, v =>
    if k = q then (k, v) :: rest else (k, w) :: hset rest q v

def hdel (h : HMap) (q : String) : HMap := h.filter (fun kv => kv.1 ≠ q)

def hhas (h : HMap) (q : String) : Bool := (hget h q).isSome

/-! ## Request normalizer (src/src/request-normalizer.ts, first revision)

The three identity-catalog constants the normalizer imports are handled as
follows: `BILLING_HEADER_TEXT` and `IDENTITY_TEXT` are embedded verbatim
(src/src/claude-code-identity.ts:14,17); the very large
`SYSTEM_INSTRUCTIONS_TEXT` and `CLAUDE_CODE_TOOLS` are parameters `sit` and
`ccTools` of `normalizeRequest`, with the facts the code depends on
(`sit.length > 5000`, `ccTools` a non-empty array) supplied as hypotheses
where needed. -/

structure ModelRule where
  keyword : String
  requiredBetaFlags : List String
  thinking : Option Json
  removeTemperature : Bool
  requireClaudeCodeIdentity : Bool

/-- src/src/request-normalizer.ts:50-95. -/
def MODEL_RULES : List ModelRule :=
  [ { keyword := "haiku",
      requiredBetaFlags :=
        ["interleaved-thinking-2025-05-14", "prompt-caching-scope-2026-01-05"],
      thinking := none,
      removeTemperature := false,
      requireClaudeCodeIdentity := false },
    { keyword := "sonnet",
      requiredBetaFlags :=
        ["claude-code-20250219", "interleaved-thinking-2025-05-14",
         "prompt-caching-scope-2026-01-05", "effort-2025-11-24",
         "adaptive-thinking-2026-01-28"],
      thinking := some (.obj [("type", .str "adaptive")]),
      removeTemperature := true,
      requireClaudeCodeIdentity := true },
    { keyword := "opus",
      requiredBetaFlags :=
        ["claude-code-20250219", "interleaved-thinking-2025-05-14",
         "prompt-caching-scope-2026-01-05", "effort-2025-11-24",
         "adaptive-thinking-2026-01-28"],
      thinking := some (.obj [("type", .str "adaptive")]),
      removeTemperature := true,
      requireClaudeCodeIdentity := true } ]

/-- src/src/request-normalizer.ts:101-116, header names in normal form. -/
def CLAUDE_CODE_HEADERS : List (String × String) :=
  [ ("accept", "application/json"),
    ("accept-encoding", "gzip, deflate, br, zstd"),
    ("user-agent", "claude-cli/2.1.59 (external, sdk-ts)"),
    ("x-stainless-arch", "x64"),
    ("x-stainless-lang", "js"),
    ("x-stainless-os", "Windows"),
    ("x-stainless-package-version", "0.74.0"),
    ("x-stainless-retry-count", "0"),
    ("x-stainless-runtime", "node"),
    ("x-stainless-runtime-version", "v24.3.0"),
    ("x-stainless-timeout", "600"),
    ("anthropic-dangerous-direct-browser-access", "true"),
    ("anthropic-version", "2023-06-01"),
    ("x-app", "cli") ]

/-- src/src/request-normalizer.ts:123-129. -/
def PROTOCOL_CRITICAL_HEADERS : List String :=
  ["accept", "accept-encoding", "anthropic-dangerous-direct-browser-access",
   "anthropic-version", "x-app"]

/-- src/src/request-normalizer.ts:266-277. -/
def BROWSER_FINGERPRINT_HEADERS : List String :=
  ["sec-ch-ua", "sec-ch-ua-platform", "sec-ch-ua-mobile", "sec-fetch-site",
   "sec-fetch-mode", "sec-fetch-dest", "accept-language", "priority",
   "origin", "referer"]

/-- src/src/claude-code-identity.ts:14 — empty in the captured 2-block
format. -/
def BILLING_HEADER_TEXT : String := ""

/-- src/src/claude-code-identity.ts:17. -/
def IDENTITY_TEXT : String :=
  "You are Claude Code, Anthropic\x27s official CLI for Claude, running within the Claude Agent SDK."

/-- `IDENTITY_PREFIX` of src/src/request-normalizer.ts:143 (stable identity
prefix shared by all CLI versions). -/
def IDENTITY_PREFIX_TEXT : String :=
  "You are Claude Code, Anthropic\x27s official CLI for Claude"

def isAnyrouterTarget (host : String) : Bool :=
  strContains (strToLower host) "anyrouter.top"

def findMatchingRule (model : String) : Option ModelRule :=
  MODEL_RULES.find? fun rule => strContains (strToLower model) rule.keyword

/-- The token list of an `anthropic-beta` header value: split on commas, trim
each token, drop empties (src/src/request-normalizer.ts:181). -/
def cleanBetaTokens (existing : Option String) : List String :=
  ((splitComma (existing.getD "")).map trimStr).filter fun f => f.length > 0

/-- Embedding of `mergeBetaFlags` (src/src/request-normalizer.ts:179-187):
split the existing value on commas, trim, drop empties, dedupe in insertion
order, append missing required flags, join with commas. -/
def mergeBetaFlags (existing : Option String) (required : List String) : String :=
  let presentFlags := dedupKeepFirst (cleanBetaTokens existing)
  joinComma (required.foldl addUnique presentFlags)

/-- `isRecord` of src/src/request-normalizer.ts:189-191: a non-null,
non-array object. -/
def isRecord : Json → Bool
  | .obj _ => true
  | _ => false

/-- Embedding of `normalizeSystemToArray`
(src/src/request-normalizer.ts:198-207); the argument is the possibly-absent
`body.system`. -/
def normalizeSystemToArray : Option Json → List Json
  | some (.arr xs) => xs
  | some (.str s) =>
    if (trimStr s).length > 0 then [.obj [("type", .str "text"), ("text", .str s)]]
    else []
  | some (.obj fs) =>
    match lookupField fs "type" with
    | some (.str _) => [.obj fs]
    | _ => []
  | _ => []

/-- Embedding of `hasClaudeCodeIdentity` (src/src/request-normalizer.ts:210-212). -/
def hasClaudeCodeIdentity (block : Json) : Bool :=
  match block with
  | .obj fs =>
    match lookupField fs "text" with
    | some (.str t) => strStartsWith t IDENTITY_PREFIX_TEXT
    | _ => false
  | _ => false

/-- Embedding of `buildClaudeCodeUserId`
(src/src/request-normalizer.ts:215-219); the two `crypto.randomUUID()`
results are passed in as oracle arguments. -/
def buildClaudeCodeUserId (uuid1 uuid2 : String) : String :=
  "user_" ++ String.mk (uuid1.data.filter fun c => c ≠ '-') ++
    "_account__session_" ++ uuid2

/-- Executable matcher for `CLAUDE_CODE_USER_ID_PATTERN`
(src/src/request-normalizer.ts:132):
`^user_[a-f0-9]+_account__session_[0-9a-f-]\x7b36\x7d$`.  Since `_` is not a
hex digit, the greedy `[a-f0-9]+` run is exactly the maximal hex run. -/
def matchesUserIdPattern (s : String) : Bool :=
  let l := s.data
  let pre := "user_".data
  if pre.isPrefixOf l then
    let afterPre := l.drop pre.length
    let hexRun := afterPre.takeWhile isHexLower
    let mid := "_account__session_".data
    let afterHex := afterPre.drop hexRun.length
    hexRun.length > 0 && mid.isPrefixOf afterHex &&
      (let sess := afterHex.drop mid.length
       sess.length = 36 && sess.all fun c => isHexLower c || c = '-')
  else false

/-- CLI session-id check on the metadata object: `user_id` must be a string
matching the pattern (src/src/request-normalizer.ts:495,548). -/
def hasValidUserId (md : List (String × Json)) : Bool :=
  match lookupField md "user_id" with
  | some (.str s) => matchesUserIdPattern s
  | _ => false

/-- Embedding of `isClaudeCodeCliRequest`
(src/src/request-normalizer.ts:236-259). -/
def isClaudeCodeCliRequest (headers : HMap) (bodyFields : List (String × Json)) :
    Bool :=
  let betaFlags := (splitComma ((hget headers "anthropic-beta").getD "")).map trimStr
  if betaFlags.contains "claude-code-20250219" then true
  else
    let systemArray := normalizeSystemToArray (lookupField bodyFields "system")
    let sentinelFirst :=
      match systemArray with
      | .obj fs :: _ =>
        (match lookupField fs "text" with
         | some (.str t) => strContains t "x-anthropic-billing-header"
         | _ => false)
      | _ => false
    if sentinelFirst then true
    else strStartsWith ((hget headers "user-agent").getD "") "claude-cli/"

/-- Embedding of `stripBrowserHeaders` (src/src/request-normalizer.ts:279-283). -/
def stripBrowserHeaders (headers : HMap) : HMap :=
  BROWSER_FINGERPRINT_HEADERS.foldl hdel headers

/-- One step of the `applyClaudeCodeHeaders` loop: set the table entry when
`overwriteAll` holds, the header is protocol-critical, or it is missing. -/
def applyHeaderEntry (overwriteAll : Bool) (h : HMap) (kv : String × String) : HMap :=
  if overwriteAll || PROTOCOL_CRITICAL_HEADERS.contains kv.1 || !(hhas h kv.1)
  then hset h kv.1 kv.2 else h

def applyHeaderTable (tbl : List (String × String)) (overwriteAll : Bool)
    (headers : HMap) : HMap :=
  tbl.foldl (applyHeaderEntry overwriteAll) headers

/-- Embedding of `applyClaudeCodeHeaders`
(src/src/request-normalizer.ts:297-304). -/
def applyClaudeCodeHeaders (headers : HMap) (overwriteAll : Bool) : HMap :=
  applyHeaderTable CLAUDE_CODE_HEADERS overwriteAll headers

structure NormalizeResult where
  headers : HMap
  body : Json
  bodyText : String
  normalized : Bool
deriving Repr

/-- `cache_control: ephemeral` object. -/
def ephemeralCC : Json := .obj [("type", .str "ephemeral")]

/-- Identity block injected by the normalizer
(src/src/request-normalizer.ts:423-427 / 513-517). -/
def identityBlock : Json :=
  .obj [("type", .str "text"), ("text", .str IDENTITY_TEXT),
        ("cache_control", ephemeralCC)]

/-- Instructions block, parameterized by the catalog text `sit`
(src/src/request-normalizer.ts:428-432 / 518-522). -/
def instructionsBlock (sit : String) : Json :=
  .obj [("type", .str "text"), ("text", .str sit),
        ("cache_control", ephemeralCC)]

/-- The canonical system prefix (src/src/request-normalizer.ts:435-437):
billing block first when `BILLING_HEADER_TEXT` is non-empty. -/
def canonicalPrefixBlocks (sit : String) : List Json :=
  if BILLING_HEADER_TEXT.length > 0 then
    [.obj [("type", .str "text"), ("text", .str BILLING_HEADER_TEXT)],
     identityBlock, instructionsBlock sit]
  else [identityBlock, instructionsBlock sit]

/-- First system block contains the billing-envelope sentinel
(src/src/request-normalizer.ts:444-448). -/
def firstBlockHasSentinel : List Json → Bool
  | .obj fs :: _ =>
    (match lookupField fs "text" with
     | some (.str t) => strContains t "x-anthropic-billing-header"
     | _ => false)
  | _ => false

/-- Ensure `cache_control` is a record on a block
(src/src/request-normalizer.ts:452-455, 460-463). -/
def ensureCacheControl : Json → Json
  | .obj fs =>
    (match lookupField fs "cache_control" with
     | some (.obj _) => .obj fs
     | _ => .obj (setField fs "cache_control" ephemeralCC))
  | j => j

/-- Some block after the first looks like the full instructions: text longer
than 5000 (src/src/request-normalizer.ts:465-468). -/
def hasInstructionsTail (systemArray : List Json) : Bool :=
  (systemArray.drop 1).any fun b =>
    match b with
    | .obj fs =>
      (match lookupField fs "text" with
       | some (.str t) => t.length > 5000
       | _ => false)
    | _ => false

/-- The system-array rewrite of the CLI path
(src/src/request-normalizer.ts:439-486). -/
def cliSystemRewrite (sit : String) (systemArray : List Json) : List Json :=
  if systemArray.isEmpty then canonicalPrefixBlocks sit
  else if firstBlockHasSentinel systemArray then
    match systemArray with
    | a :: b :: rest =>
      if isRecord b then a :: ensureCacheControl b :: rest
      else a :: b :: rest
    | l => l
  else if hasClaudeCodeIdentity (systemArray.headD .null) then
    let systemArray' :=
      match systemArray with
      | a :: rest => ensureCacheControl a :: rest
      | [] => []
    let hasInstructions := hasInstructionsTail systemArray
    if BILLING_HEADER_TEXT.length > 0 then
      let billingBlock : Json :=
        .obj [("type", .str "text"), ("text", .str BILLING_HEADER_TEXT)]
      if hasInstructions then billingBlock :: systemArray'
      else billingBlock :: (systemArray' ++ [instructionsBlock sit])
    else
      if hasInstructions then systemArray'
      else systemArray' ++ [instructionsBlock sit]
  else canonicalPrefixBlocks sit ++ systemArray

/-- The system-array rewrite of the generic (non-CLI) path
(src/src/request-normalizer.ts:527-537). -/
def genericSystemRewrite (sit : String) (systemArray : List Json) : List Json :=
  if systemArray.any hasClaudeCodeIdentity then systemArray
  else if systemArray.isEmpty then canonicalPrefixBlocks sit
  else canonicalPrefixBlocks sit ++ systemArray

/-- Tools / metadata enforcement shared by the CLI and generic identity paths
(src/src/request-normalizer.ts:489-498, 542-551). -/
def identityToolsMetadata (ccTools : List Json) (uuid1 uuid2 : String)
    (fs : List (String × Json)) : List (String × Json) :=
  let fs1 :=
    match lookupField fs "tools" with
    | some (.arr ts) => if ts.isEmpty then setField fs "tools" (.arr ccTools) else fs
    | _ => setField fs "tools" (.arr ccTools)
  let md :=
    match lookupField fs1 "metadata" with
    | some (.obj mfs) => mfs
    | _ => []
  let md' :=
    if hasValidUserId md then md
    else setField md "user_id" (.str (buildClaudeCodeUserId uuid1 uuid2))
  setField fs1 "metadata" (.obj md')

/-- The body rewrite of step 7 for the haiku (non-identity) path
(src/src/request-normalizer.ts:556-574). -/
def haikuBodyDefaults (fs : List (String × Json)) : List (String × Json) :=
  let hasValidSystem :=
    match lookupField fs "system" with
    | some (.arr xs) => !xs.isEmpty
    | some (.str s) => (trimStr s).length > 0
    | _ => false
  let fs1 :=
    if hasValidSystem then fs
    else setField fs "system" (.arr [.obj [("type", .str "text"), ("text", .str IDENTITY_TEXT)]])
  let fs2 :=
    match lookupField fs1 "tools" with
    | some (.arr _) => fs1
    | _ => setField fs1 "tools" (.arr [])
  if jsTruthyOpt (lookupField fs2 "metadata") then fs2
  else setField fs2 "metadata" (.obj [("user_id", .str "normalized-request")])

/-- Step 5 of `normalizeRequest` (src/src/request-normalizer.ts:401-405):
convert a truthy `x-api-key` to `Authorization: Bearer …` when no truthy
`Authorization` is present. -/
def authHeaderStep (h : HMap) : HMap :=
  match hget h "x-api-key" with
  | some apiKey =>
    if apiKey ≠ "" && !(jsTruthyStr (hget h "authorization")) then
      hdel (hset h "authorization" ("Bearer " ++ apiKey)) "x-api-key"
    else h
  | none => h

/-- The header mutations of `normalizeRequest` in source order: beta merge
(step 1), fingerprint strip and identity headers (step 4), auth conversion
(step 5), `content-length` removal (step 8).  The original `user-agent` is
read before any mutation (pre-step A of the source). -/
def normalizeHeadersPipe (headers : HMap) (rule : ModelRule) : HMap :=
  let isOriginalCliRequest :=
    strStartsWith ((hget headers "user-agent").getD "") "claude-cli/"
  let h1 := hset headers "anthropic-beta"
    (mergeBetaFlags (hget headers "anthropic-beta") rule.requiredBetaFlags)
  let h2 := applyClaudeCodeHeaders (stripBrowserHeaders h1) (!isOriginalCliRequest)
  let h3 := authHeaderStep h2
  hdel h3 "content-length"

/-- The body mutations of `normalizeRequest` before the `max_tokens`
default: thinking (step 2), temperature (step 3), system/tools/metadata per
path (step 7). -/
def normalizeBodyPreMax (sit : String) (ccTools : List Json)
    (uuid1 uuid2 : String) (rule : ModelRule) (isCli : Bool)
    (bodyFields : List (String × Json)) : List (String × Json) :=
  let fs1 :=
    match rule.thinking with
    | some t => setField bodyFields "thinking" t
    | none => delField bodyFields "thinking"
  let fs2 := if rule.removeTemperature then delField fs1 "temperature" else fs1
  if rule.requireClaudeCodeIdentity && isCli then
    let systemArray := normalizeSystemToArray (lookupField fs2 "system")
    let fsA := setField fs2 "system" (.arr (cliSystemRewrite sit systemArray))
    identityToolsMetadata ccTools uuid1 uuid2 fsA
  else if rule.requireClaudeCodeIdentity && !isCli then
    let systemArray := normalizeSystemToArray (lookupField fs2 "system")
    let fsA := setField fs2 "system" (.arr (genericSystemRewrite sit systemArray))
    identityToolsMetadata ccTools uuid1 uuid2 fsA
  else haikuBodyDefaults fs2

/-- The body mutations of `normalizeRequest` in source order: thinking
(step 2), temperature (step 3), system/tools/metadata per path (step 7),
`max_tokens` default (step 7 tail). -/
def normalizeBodyFields (sit : String) (ccTools : List Json)
    (uuid1 uuid2 : String) (rule : ModelRule) (isCli : Bool)
    (bodyFields : List (String × Json)) : List (String × Json) :=
  let fs3 := normalizeBodyPreMax sit ccTools uuid1 uuid2 rule isCli bodyFields
  if jsTruthyOpt (lookupField fs3 "max_tokens") then fs3
  else setField fs3 "max_tokens" (.num 32000)

/-- Embedding of `normalizeRequest` (src/src/request-normalizer.ts:336-588).
`sit` and `ccTools` stand for the catalog constants
`SYSTEM_INSTRUCTIONS_TEXT` and `CLAUDE_CODE_TOOLS`; `uuid1`, `uuid2` are the
random UUIDs consumed by `buildClaudeCodeUserId` when a fresh user id is
needed.  The source interleaves header and body mutations; they act on
disjoint objects, and both CLI-detection reads (pre-steps A and B) happen on
the unmutated headers and body, so the two pipelines are composed here. -/
def normalizeRequest (sit : String) (ccTools : List Json) (uuid1 uuid2 : String)
    (targetHost : String) (headers : HMap) (body : Json) (bodyText : String) :
    NormalizeResult :=
  if !isAnyrouterTarget targetHost then
    { headers := headers, body := body, bodyText := bodyText, normalized := false }
  else
    match body with
    | .obj bodyFields =>
      (match lookupField bodyFields "model" with
       | some (.str model) =>
         (match findMatchingRule model with
          | some rule =>
            -- Pre-step B: CLI detection before the beta merge.
            let isCli :=
              if rule.requireClaudeCodeIdentity then
                isClaudeCodeCliRequest headers bodyFields
              else false
            let h4 := normalizeHeadersPipe headers rule
            let fs4 := normalizeBodyFields sit ccTools uuid1 uuid2 rule isCli bodyFields
            { headers := h4, body := .obj fs4,
              bodyText := Json.stringify (.obj fs4), normalized := true }
          | none =>
            { headers := headers, body := body, bodyText := bodyText, normalized := false })
       | _ =>
         { headers := headers, body := body, bodyText := bodyText, normalized := false })
    | _ =>
      { headers := headers, body := body, bodyText := bodyText, normalized := false }

/-- Field list of a JSON object (empty for non-objects). -/
def objFields : Json → List (String × Json)
  | .obj fs => fs
  | _ => []

/-! ## Support lemmas: order-preserving sets -/

theorem mem_addUnique {l : List String} {x y : String} :
    y ∈ addUnique l x ↔ y ∈ l ∨ y = x := by
  unfold addUnique
  split
  · constructor
    · exact fun h => Or.inl h
    · rintro (h | rfl)
      · exact h
      · assumption
  · simp

theorem nodup_addUnique {l : List String} (h : l.Nodup) (x : String) :
    (addUnique l x).Nodup := by
  unfold addUnique
  split
  · exact h
  · rename_i hx
    simp [List.nodup_append, h, List.disjoint_singleton, hx]

theorem nodup_foldl_addUnique (l : List String) :
    ∀ acc : List String, acc.Nodup → (l.foldl addUnique acc).Nodup := by
  induction l with
  | nil => exact fun acc h => h
  | cons x xs ih =>
    intro acc hacc
    exact ih (addUnique acc x) (nodup_addUnique hacc x)

theorem mem_foldl_addUnique_acc (l : List String) :
    ∀ acc : List String, ∀ y ∈ acc, y ∈ l.foldl addUnique acc := by
  induction l with
  | nil => exact fun acc y hy => hy
  | cons x xs ih =>
    intro acc y hy
    exact ih (addUnique acc x) y (mem_addUnique.mpr (Or.inl hy))

theorem mem_foldl_addUnique_elem (l : List String) :
    ∀ acc : List String, ∀ y ∈ l, y ∈ l.foldl addUnique acc := by
  induction l with
  | nil => simp
  | cons x xs ih =>
    intro acc y hy
    rcases List.mem_cons.mp hy with rfl | hy'
    · exact mem_foldl_addUnique_acc xs _ y (mem_addUnique.mpr (Or.inr rfl))
    · exact ih _ y hy'

theorem nodup_dedupKeepFirst (l : List String) : (dedupKeepFirst l).Nodup :=
  nodup_foldl_addUnique l [] List.nodup_nil

theorem dedupKeepFirst_append (l1 l2 : List String) :
    dedupKeepFirst (l1 ++ l2) = l2.foldl addUnique (dedupKeepFirst l1) := by
  simp [dedupKeepFirst, List.foldl_append]

/-! ## Claim C4 — beta-flag merge -/

theorem mem_dedupKeepFirst_of_mem {l : List String} {f : String} (h : f ∈ l) :
    f ∈ dedupKeepFirst l :=
  mem_foldl_addUnique_elem l [] f h

/-- C4: for every incoming `anthropic-beta` value H (possibly absent) and
required-flag list R, `mergeBetaFlags` produces exactly the order-preserving
first-occurrence deduplication of H's cleaned tokens (split on `,`, trimmed,
empties dropped) followed by the missing flags of R in declaration order,
joined with commas; the flag list has no duplicates, retains every token of H
and contains every flag of R; and the spec's literal example evaluates to the
expected header value. -/
theorem mergeBetaFlags_correct (existing : Option String) (required : List String) :
    mergeBetaFlags existing required
        = joinComma (dedupKeepFirst (cleanBetaTokens existing ++ required))
      ∧ (dedupKeepFirst (cleanBetaTokens existing ++ required)).Nodup
      ∧ (∀ f ∈ cleanBetaTokens existing,
          f ∈ dedupKeepFirst (cleanBetaTokens existing ++ required))
      ∧ (∀ f ∈ required, f ∈ dedupKeepFirst (cleanBetaTokens existing ++ required))
      ∧ mergeBetaFlags (some "context-1m-2025-08-07, structured-outputs-2025-12-15")
            ["claude-code-20250219", "interleaved-thinking-2025-05-14"]
          = "context-1m-2025-08-07,structured-outputs-2025-12-15,claude-code-20250219,interleaved-thinking-2025-05-14" := by
  refine ⟨?_, nodup_dedupKeepFirst _, ?_, ?_, by decide⟩
  · rw [dedupKeepFirst_append]
    rfl
  · intro f hf
    exact mem_dedupKeepFirst_of_mem (List.mem_append_left _ hf)
  · intro f hf
    exact mem_dedupKeepFirst_of_mem (List.mem_append_right _ hf)

/-! ## Claim C8 — targeted remove -/

theorem removeOrphanedToolResult_pred_eq (toolUseId : String) (b : ContentBlock) :
    (if b.type = "tool_result" && jsTruthyStr b.tool_use_id then
        !(b.tool_use_id == some toolUseId)
      else true)
      = !(b.type == "tool_result" && b.tool_use_id == some toolUseId &&
          toolUseId != "") := by
  rcases b with ⟨ty, id, tid⟩
  rcases tid with _ | s
  · simp [jsTruthyStr]
  · by_cases hty : ty = "tool_result" <;>
      by_cases hs : s = "" <;>
        by_cases hI : s = toolUseId <;>
          simp_all [jsTruthyStr]

/-- C8 (amended): the targeted-remove operation is pure and total; it
preserves the number and order of messages (a message whose content becomes
empty is retained) and each message's role, and filters each content
sequence, removing exactly the `tool_result` blocks whose `tool_use_id` is
present, non-empty, and byte-equal to the given identifier.  (For the
original claim's unrestricted byte-equality see the counterexample: a
`tool_result` block carrying the empty-string id is retained even when the
identifier is the empty string, because of the JS truthiness guard
`block.tool_use_id` in the source.) -/
theorem removeOrphanedToolResult_targeted (messages : List Message)
    (toolUseId : String) :
    (removeOrphanedToolResult messages toolUseId).length = messages.length
    ∧ ∀ i : Nat,
        ((removeOrphanedToolResult messages toolUseId).getD i ⟨"", []⟩).role
            = (messages.getD i ⟨"", []⟩).role
        ∧ ((removeOrphanedToolResult messages toolUseId).getD i ⟨"", []⟩).content
            = (messages.getD i ⟨"", []⟩).content.filter
                (fun b => !(b.type == "tool_result" &&
                    b.tool_use_id == some toolUseId && toolUseId != "")) := by
  constructor
  · simp [removeOrphanedToolResult]
  · intro i
    simp only [removeOrphanedToolResult, List.getD_eq_getElem?_getD,
      List.getElem?_map]
    cases h : messages[i]? with
    | none => simp
    | some m =>
      simp only [Option.map_some, Option.getD_some]
      refine ⟨rfl, ?_⟩
      exact List.filter_congr fun b _ => removeOrphanedToolResult_pred_eq toolUseId b

/-- C8, counterexample to the unamended claim: with the empty-string
identifier, a `tool_result` block whose `tool_use_id` is the empty string
byte-equals the identifier, yet the code retains it (the truthiness guard
rejects `""`), so the output differs from removing every byte-equal block. -/
theorem removeOrphanedToolResult_empty_id_counterexample :
    removeOrphanedToolResult
        [{ role := "user",
           content := [{ type := "tool_result", tool_use_id := some "" }] }] ""
      ≠ [{ role := "user",
           content := ([{ type := "tool_result", tool_use_id := some "" }] :
              List ContentBlock).filter
                (fun b => !(b.type == "tool_result" && b.tool_use_id == some "")) }] := by
  decide

/-! ## Claim C2 — overload classification -/

/-- C2: the overload classifier agrees with the spec-side formulation on
every response: overload exactly when the status is one of 500, 503, 529 and
the message — `.error.message`, else `.message` when the body parses as
JSON, else the raw body text — case-insensitively matches one of the five
patterns.  The source reads the body from a `clone()`, which the pure model
renders as value access, and the classifier is a total function: every
JS-throw path (for instance a non-string `.error.message`) is mapped to the
non-overload result. -/
theorem isOverloadError_matches_spec (r : Response) :
    isOverloadError r = isOverloadErrorSpec r := by
  rcases r with ⟨s, ct, te, b⟩
  unfold isOverloadError isOverloadErrorSpec
  by_cases h5 : s = 500 <;> by_cases h29 : s = 529 <;> by_cases h3 : s = 503 <;>
    simp_all <;>
    (try subst h5) <;> (try subst h29) <;> (try subst h3) <;>
    by_cases hb : b = "" <;> simp_all <;>
    (try (subst hb; decide)) <;>
    cases hm : overloadMessage (Json.parse b) b <;>
      simp [List.any_cons, List.any_nil, Bool.or_assoc]

/-! ## Claim C10 — orphan-pattern precedence -/

/-- C10: for a 400 response whose JSON `.error.message` is the string `m`,
the detector returns exactly the Claude-pattern captures with provider
`claude` whenever the primary pattern has at least one match, and evaluates
the MiniMax pattern only when the primary has none — captures of the two
patterns are never combined. -/
theorem detectOrphanedToolError_precedence (r : Response) (errorData : Json)
    (m : String) (h400 : r.status = 400)
    (hparse : Json.parse r.body = some errorData)
    (hmsg : jsChain2 errorData "error" "message" = some (.str m)) :
    (scanClaude m.data ≠ [] →
      detectOrphanedToolError r
        = { isError := true, orphanedIds := scanClaude m.data,
            provider := some "claude" })
    ∧ (scanClaude m.data = [] → scanMiniMax m.data ≠ [] →
      detectOrphanedToolError r
        = { isError := true, orphanedIds := scanMiniMax m.data,
            provider := some "minimax" }) := by
  constructor
  · intro hC
    simp [detectOrphanedToolError, h400, hparse, detectErrMessage, hmsg,
      List.length_pos, hC]
  · intro hC hM
    simp [detectOrphanedToolError, h400, hparse, detectErrMessage, hmsg, hC,
      List.length_pos, hM]

/-- C10 witness: a concrete 400 response carrying the primary pattern. -/
theorem detectOrphanedToolError_precedence_witness :
    detectOrphanedToolError
        { status := 400,
          body := "\x7b\"error\":\x7b\"message\":\"unexpected `tool_use_id` found in `tool_result` blocks: toolu_G\"\x7d\x7d" }
      = { isError := true, orphanedIds := ["toolu_G"], provider := some "claude" } :=
  (detectOrphanedToolError_precedence
      { status := 400,
        body := "\x7b\"error\":\x7b\"message\":\"unexpected `tool_use_id` found in `tool_result` blocks: toolu_G\"\x7d\x7d" }
      (.obj [("error", .obj [("message",
        .str "unexpected `tool_use_id` found in `tool_result` blocks: toolu_G")])])
      "unexpected `tool_use_id` found in `tool_result` blocks: toolu_G"
      rfl rfl rfl).1 (by decide)

/-! ## Claim C1 — one-shot reactive orphan repair -/

/-- C1: whenever the response left by the initial dispatch and the overload
loop is non-streaming with status 400 and classifies as an orphan error with
a non-empty id list, the orchestrator performs exactly one reactive repair:
it removes from the (proactively cleaned) messages only the `tool_result`
blocks matching the first cited id, records all cited ids in
`metadata.removedToolUseIds`, increases `metadata.retryCount` by exactly one
over the overload count, sleeps 100 ms, performs exactly one further
dispatch, and returns that second response unchanged — in particular a
second 400 orphan response is never repaired or retried again, since the
dispatch count is `idx + 1` and the response is returned whatever its
classification. -/
theorem retryWithCleanup_orphan_repair (upstream : Nat → Response)
    (bodyText : String) (b : OrcBody) (resp : Response) (rc idx : Nat)
    (sleeps : List Nat)
    (hphase : overloadPhase upstream = (resp, rc, idx, sleeps))
    (hstream : isStreamingResponse resp = false)
    (h400 : resp.status = 400)
    (herr : (detectOrphanedToolError resp).isError = true)
    (hids : (detectOrphanedToolError resp).orphanedIds ≠ []) :
    (retryWithCleanup upstream bodyText (.objectBody b)).response = upstream idx
    ∧ (retryWithCleanup upstream bodyText (.objectBody b)).dispatched
        = List.replicate idx
            (encodeOrcBody { b with
              messages := (detectAndRemoveOrphanedToolResults b.messages).cleanedMessages })
          ++ [encodeOrcBody { b with
              messages := removeOrphanedToolResult
                (detectAndRemoveOrphanedToolResults b.messages).cleanedMessages
                ((detectOrphanedToolError resp).orphanedIds.headD "") }]
    ∧ (retryWithCleanup upstream bodyText (.objectBody b)).sleeps = sleeps ++ [100]
    ∧ (retryWithCleanup upstream bodyText (.objectBody b)).metadata.removedToolUseIds
        = (detectOrphanedToolError resp).orphanedIds
    ∧ (retryWithCleanup upstream bodyText (.objectBody b)).metadata.retryCount = rc + 1
    ∧ (retryWithCleanup upstream bodyText (.objectBody b)).metadata.proactiveRemovedIds
        = (detectAndRemoveOrphanedToolResults b.messages).removedIds := by
  have hok : respOk resp = false := by
    simp [respOk, h400]
  simp only [retryWithCleanup, hphase, hstream, hok, Bool.false_eq_true,
    if_false, h400]
  simp only [dite_true]
  rw [dif_pos ⟨herr, hids⟩]
  obtain ⟨id0, ids', hid⟩ := List.exists_cons_of_ne_nil hids
  simp [hid]

/-- C1 witness: with an upstream answering a 400 orphan error on the first
dispatch and 200 afterwards, the repair dispatch's response is returned. -/
theorem retryWithCleanup_orphan_repair_witness :
    (retryWithCleanup
        (fun k => if k = 0 then
            { status := 400,
              body := "\x7b\"error\":\x7b\"message\":\"unexpected `tool_use_id` found in `tool_result` blocks: toolu_G\"\x7d\x7d" }
          else { status := 200, body := "ok" })
        "x" (.objectBody { messages := [] })).response
      = { status := 200, body := "ok" } :=
  (retryWithCleanup_orphan_repair
      (fun k => if k = 0 then
          { status := 400,
            body := "\x7b\"error\":\x7b\"message\":\"unexpected `tool_use_id` found in `tool_result` blocks: toolu_G\"\x7d\x7d" }
        else { status := 200, body := "ok" })
      "x" { messages := [] }
      { status := 400,
        body := "\x7b\"error\":\x7b\"message\":\"unexpected `tool_use_id` found in `tool_result` blocks: toolu_G\"\x7d\x7d" }
      0 1 [] (by decide) (by decide) rfl (by decide) (by decide)).1

/-! ## Claim C3 — overload loop bounds and schedule -/

theorem overloadPhase_spec (upstream : Nat → Response) :
    (overloadPhase upstream).2.2.2
        = (List.range (overloadPhase upstream).2.1).map (fun i => 1000 * 2 ^ i)
    ∧ (overloadPhase upstream).2.1 ≤ MAX_OVERLOAD_RETRIES
    ∧ (overloadPhase upstream).2.2.1 = (overloadPhase upstream).2.1 + 1
    ∧ (isOverloadError (overloadPhase upstream).1 = false
        ∨ (overloadPhase upstream).2.1 = MAX_OVERLOAD_RETRIES)
    ∧ (∀ j, j < (overloadPhase upstream).2.1 → isOverloadError (upstream j) = true) := by
  by_cases h0 : isOverloadError (upstream 0)
  · by_cases h1 : isOverloadError (upstream 1)
    · have hp : overloadPhase upstream = (upstream 2, 2, 3, [1000, 2000]) := by
        simp [overloadPhase, MAX_OVERLOAD_RETRIES, overloadLoopGo, h0, h1]
      rw [hp]
      refine ⟨by simp [List.range_succ], by simp [MAX_OVERLOAD_RETRIES], rfl,
        Or.inr rfl, ?_⟩
      intro j hj
      simp only at hj
      interval_cases j
      · exact h0
      · exact h1
    · have hp : overloadPhase upstream = (upstream 1, 1, 2, [1000]) := by
        simp [overloadPhase, MAX_OVERLOAD_RETRIES, overloadLoopGo, h0, h1]
      rw [hp]
      refine ⟨by simp [List.range_succ], by simp [MAX_OVERLOAD_RETRIES], rfl,
        Or.inl (by simp [h1]), ?_⟩
      intro j hj
      simp only at hj
      interval_cases j
      exact h0
  · have hp : overloadPhase upstream = (upstream 0, 0, 1, []) := by
      simp [overloadPhase, h0]
    rw [hp]
    refine ⟨by simp, by simp [MAX_OVERLOAD_RETRIES], rfl,
      Or.inl (by simp [h0]), ?_⟩
    intro j hj
    simp at hj

theorem retryWithCleanup_shape (upstream : Nat → Response) (bodyText : String)
    (b : OrcBody) :
    ∃ extra : List String, extra.length ≤ 1
      ∧ (retryWithCleanup upstream bodyText (.objectBody b)).dispatched
          = List.replicate (overloadPhase upstream).2.2.1
              (encodeOrcBody { b with
                messages := (detectAndRemoveOrphanedToolResults b.messages).cleanedMessages })
            ++ extra
      ∧ (retryWithCleanup upstream bodyText (.objectBody b)).metadata.retryCount
          = (overloadPhase upstream).2.1 + extra.length := by
  rcases hp : overloadPhase upstream with ⟨resp, rc, idx, sl⟩
  simp only [retryWithCleanup, hp]
  split
  · exact ⟨[], by simp⟩
  · split
    · exact ⟨[], by simp⟩
    · split
      · rename_i out heq
        split at heq
        · split at heq
          · rename_i herr
            rw [Option.some_inj] at heq
            subst heq
            exact ⟨[encodeOrcBody
              { messages := removeOrphanedToolResult
                  (detectAndRemoveOrphanedToolResults b.messages).cleanedMessages
                  ((detectOrphanedToolError resp).orphanedIds.head herr.2),
                rest := b.rest }], by simp, by simp, by simp⟩
          · exact absurd heq (by simp)
        · exact absurd heq (by simp)
      · exact ⟨[], by simp⟩

/-- C3: per invocation at most `1 + MAX_OVERLOAD_RETRIES + 1 = 4` dispatches
occur (on every parse outcome); the overload loop performs at most
`MAX_OVERLOAD_RETRIES = 2` additional dispatches (`idx = rc + 1` counts the
initial dispatch plus the loop's), sleeps `1000 * 2 ^ (attempt - 1)` ms
before each (the schedule `[1000, 2000]` prefix), exits as soon as a
response is not classified as overload (either the final response is
non-overload or the bound was reached, and every dispatch before the last
loop dispatch was an overload), sends byte-identical body text on the
initial attempt and on every overload retry, and records the number of
overload attempts in `metadata.retryCount` (the one-shot orphan repair adds
exactly the number of extra dispatches, at most one). -/
theorem retryWithCleanup_overload_bounds (upstream : Nat → Response)
    (bodyText : String) (b : OrcBody) :
    (retryWithCleanup upstream bodyText .notJson).dispatched.length
        ≤ 1 + MAX_OVERLOAD_RETRIES + 1
    ∧ (retryWithCleanup upstream bodyText .nonObject).dispatched.length
        ≤ 1 + MAX_OVERLOAD_RETRIES + 1
    ∧ (retryWithCleanup upstream bodyText (.objectBody b)).dispatched.length
        ≤ 1 + MAX_OVERLOAD_RETRIES + 1
    ∧ (overloadPhase upstream).2.2.2
        = (List.range (overloadPhase upstream).2.1).map (fun i => 1000 * 2 ^ i)
    ∧ (overloadPhase upstream).2.1 ≤ MAX_OVERLOAD_RETRIES
    ∧ (overloadPhase upstream).2.2.1 = (overloadPhase upstream).2.1 + 1
    ∧ (isOverloadError (overloadPhase upstream).1 = false
        ∨ (overloadPhase upstream).2.1 = MAX_OVERLOAD_RETRIES)
    ∧ (∀ j, j < (overloadPhase upstream).2.1 → isOverloadError (upstream j) = true)
    ∧ (retryWithCleanup upstream bodyText (.objectBody b)).dispatched.take
          (overloadPhase upstream).2.2.1
        = List.replicate (overloadPhase upstream).2.2.1
            (encodeOrcBody { b with
              messages := (detectAndRemoveOrphanedToolResults b.messages).cleanedMessages })
    ∧ (retryWithCleanup upstream bodyText (.objectBody b)).metadata.retryCount
        = (overloadPhase upstream).2.1
          + ((retryWithCleanup upstream bodyText (.objectBody b)).dispatched.length
              - (overloadPhase upstream).2.2.1) := by
  obtain ⟨hsched, hrc, hidx, hexit, hprev⟩ := overloadPhase_spec upstream
  obtain ⟨extra, hex1, hdisp, hmeta⟩ := retryWithCleanup_shape upstream bodyText b
  have hlen : (retryWithCleanup upstream bodyText (.objectBody b)).dispatched.length
      = (overloadPhase upstream).2.2.1 + extra.length := by
    rw [hdisp]
    simp
  refine ⟨by simp [retryWithCleanup, MAX_OVERLOAD_RETRIES],
    by simp [retryWithCleanup, MAX_OVERLOAD_RETRIES], ?_,
    hsched, hrc, hidx, hexit, hprev, ?_, ?_⟩
  · rw [hlen, hidx]
    simp only [MAX_OVERLOAD_RETRIES] at hrc ⊢
    omega
  · rw [hdisp]
    have := List.take_left
      (List.replicate (overloadPhase upstream).2.2.1
        (encodeOrcBody { b with
          messages := (detectAndRemoveOrphanedToolResults b.messages).cleanedMessages }))
      extra
    rwa [List.length_replicate] at this
  · rw [hmeta, hlen]
    omega

/-! ## Support lemmas: header and field maps -/

theorem hget_hset (h : HMap) (k v q : String) :
    hget (hset h k v) q = if q = k then some v else hget h q := by
  induction h with
  | nil => simp [hset, hget, eq_comm]
  | cons kv rest ih =>
    obtain ⟨k', v'⟩ := kv
    by_cases hk : k' = k <;> by_cases hq : k' = q <;>
      simp_all [hset, hget, eq_comm]

theorem hget_hdel (h : HMap) (k q : String) :
    hget (hdel h q) k = if k = q then none else hget h k := by
  induction h with
  | nil => simp [hdel, hget]
  | cons kv rest ih =>
    obtain ⟨k', v'⟩ := kv
    by_cases hq : k' = q <;> by_cases hk : k' = k <;>
      simp_all [hdel, hget, List.filter]

theorem hset_unchanged {h : HMap} {k v : String} (hv : hget h k = some v) :
    hset h k v = h := by
  induction h with
  | nil => simp [hget] at hv
  | cons kv rest ih =>
    obtain ⟨k', v'⟩ := kv
    by_cases hk : k' = k
    · subst hk
      simp [hget] at hv
      simp [hset, hv]
    · simp [hget, hk] at hv
      simp [hset, hk, ih hv]

theorem hdel_unchanged {h : HMap} {k : String} (hv : hget h k = none) :
    hdel h k = h := by
  induction h with
  | nil => rfl
  | cons kv rest ih =>
    obtain ⟨k', v'⟩ := kv
    by_cases hk : k' = k
    · subst hk
      simp [hget] at hv
    · simp [hget, hk] at hv
      rw [hdel, List.filter_cons_of_pos (by simp [hk])]
      exact congrArg (List.cons (k', v')) (ih hv)

theorem lookupField_setField (fs : List (String × Json)) (k q : String) (v : Json) :
    lookupField (setField fs k v) q = if q = k then some v else lookupField fs q := by
  induction fs with
  | nil => simp [setField, lookupField, eq_comm]
  | cons kv rest ih =>
    obtain ⟨k', v'⟩ := kv
    by_cases hk : k' = k <;> by_cases hq : k' = q <;>
      simp_all [setField, lookupField, eq_comm]

theorem lookupField_delField (fs : List (String × Json)) (k q : String) :
    lookupField (delField fs q) k = if k = q then none else lookupField fs k := by
  induction fs with
  | nil => simp [delField, lookupField]
  | cons kv rest ih =>
    obtain ⟨k', v'⟩ := kv
    by_cases hq : k' = q <;> by_cases hk : k' = k <;>
      simp_all [delField, lookupField, List.filter]

theorem setField_unchanged {fs : List (String × Json)} {k : String} {v : Json}
    (hv : lookupField fs k = some v) : setField fs k v = fs := by
  induction fs with
  | nil => simp [lookupField] at hv
  | cons kv rest ih =>
    obtain ⟨k', v'⟩ := kv
    by_cases hk : k' = k
    · subst hk
      simp [lookupField] at hv
      simp [setField, hv]
    · simp [lookupField, hk] at hv
      simp [setField, hk, ih hv]

theorem delField_unchanged {fs : List (String × Json)} {k : String}
    (hv : lookupField fs k = none) : delField fs k = fs := by
  induction fs with
  | nil => rfl
  | cons kv rest ih =>
    obtain ⟨k', v'⟩ := kv
    by_cases hk : k' = k
    · subst hk
      simp [lookupField] at hv
    · simp [lookupField, hk] at hv
      rw [delField, List.filter_cons_of_pos (by simp [hk])]
      exact congrArg (List.cons (k', v')) (ih hv)

theorem hget_applyHeaderTable_notMem (tbl : List (String × String)) (b : Bool) :
    ∀ (h : HMap) (q : String), (∀ e ∈ tbl, e.1 ≠ q) →
      hget (applyHeaderTable tbl b h) q = hget h q := by
  induction tbl with
  | nil => intro h q _; rfl
  | cons e rest ih =>
    intro h q hq
    have hne : e.1 ≠ q := hq e (List.mem_cons_self e rest)
    have hrest : ∀ e' ∈ rest, e'.1 ≠ q := fun e' he' => hq e' (List.mem_cons_of_mem e he')
    simp only [applyHeaderTable, List.foldl_cons]
    rw [show List.foldl (applyHeaderEntry b) (applyHeaderEntry b h e) rest
        = applyHeaderTable rest b (applyHeaderEntry b h e) from rfl,
      ih _ q hrest]
    unfold applyHeaderEntry
    split
    · rw [hget_hset, if_neg (fun hh : q = e.1 => hne hh.symm)]
    · rfl

theorem hget_applyHeaderTable_hit (T1 T2 : List (String × String)) (b : Bool)
    (h : HMap) (q : String) (v : String)
    (hq2 : ∀ e ∈ T2, e.1 ≠ q)
    (hcond : b = true ∨ PROTOCOL_CRITICAL_HEADERS.contains q = true) :
    hget (applyHeaderTable (T1 ++ (q, v) :: T2) b h) q = some v := by
  simp only [applyHeaderTable, List.foldl_append, List.foldl_cons]
  rw [show List.foldl (applyHeaderEntry b)
        (applyHeaderEntry b (List.foldl (applyHeaderEntry b) h T1) (q, v)) T2
      = applyHeaderTable T2 b
          (applyHeaderEntry b (List.foldl (applyHeaderEntry b) h T1) (q, v)) from rfl,
    hget_applyHeaderTable_notMem T2 b _ q hq2]
  unfold applyHeaderEntry
  rcases hcond with hb | hc
  · subst hb
    simp [hget_hset]
  · simp only [hc, Bool.true_or, Bool.or_true, if_true]
    simp [hget_hset]

theorem hget_foldl_hdel_notMem (L : List String) :
    ∀ (h : HMap) (q : String), q ∉ L → hget (L.foldl hdel h) q = hget h q := by
  induction L with
  | nil => intro h q _; rfl
  | cons k rest ih =>
    intro h q hq
    simp only [List.foldl_cons]
    rw [ih _ q (fun hm => hq (List.mem_cons_of_mem k hm)), hget_hdel,
      if_neg (fun he : q = k => hq (by rw [he]; exact List.mem_cons_self k rest))]

theorem hget_foldl_hdel_mem (L : List String) :
    ∀ (h : HMap) (q : String), q ∈ L → hget (L.foldl hdel h) q = none := by
  induction L with
  | nil => intro h q hq; cases hq
  | cons k rest ih =>
    intro h q hq
    simp only [List.foldl_cons]
    by_cases hm : q ∈ rest
    · exact ih _ q hm
    · have hqk : q = k := by
        rcases List.mem_cons.mp hq with h' | h'
        · exact h'
        · exact absurd h' hm
      rw [hget_foldl_hdel_notMem rest _ q hm, hget_hdel, if_pos hqk]

theorem hget_authHeaderStep_other (h : HMap) (q : String)
    (hq1 : q ≠ "authorization") (hq2 : q ≠ "x-api-key") :
    hget (authHeaderStep h) q = hget h q := by
  unfold authHeaderStep
  split
  · split
    · rw [hget_hdel, if_neg hq2, hget_hset, if_neg hq1]
    · rfl
  · rfl

/-- Header-get frame through the whole normalizer header pipeline for names
not touched by any step. -/
theorem hget_normalizeHeadersPipe_frame (h : HMap) (rule : ModelRule)
    (q : String)
    (hq_beta : q ≠ "anthropic-beta") (hq_cl : q ≠ "content-length")
    (hq_auth : q ≠ "authorization") (hq_api : q ≠ "x-api-key")
    (hq_tbl : ∀ e ∈ CLAUDE_CODE_HEADERS, e.1 ≠ q)
    (hq_bl : q ∉ BROWSER_FINGERPRINT_HEADERS) :
    hget (normalizeHeadersPipe h rule) q = hget h q := by
  unfold normalizeHeadersPipe stripBrowserHeaders applyClaudeCodeHeaders
  rw [hget_hdel, if_neg hq_cl, hget_authHeaderStep_other _ _ hq_auth hq_api,
    hget_applyHeaderTable_notMem _ _ _ _ hq_tbl,
    hget_foldl_hdel_notMem _ _ _ hq_bl, hget_hset, if_neg hq_beta]

/-- Fingerprint names are absent after the pipeline. -/
theorem hget_normalizeHeadersPipe_fingerprint (h : HMap) (rule : ModelRule)
    (q : String) (hq_bl : q ∈ BROWSER_FINGERPRINT_HEADERS)
    (hq_tbl : ∀ e ∈ CLAUDE_CODE_HEADERS, e.1 ≠ q)
    (hq_cl : q ≠ "content-length")
    (hq_auth : q ≠ "authorization") (hq_api : q ≠ "x-api-key") :
    hget (normalizeHeadersPipe h rule) q = none := by
  unfold normalizeHeadersPipe stripBrowserHeaders applyClaudeCodeHeaders
  rw [hget_hdel, if_neg hq_cl, hget_authHeaderStep_other _ _ hq_auth hq_api,
    hget_applyHeaderTable_notMem _ _ _ _ hq_tbl,
    hget_foldl_hdel_mem _ _ _ hq_bl]

theorem hget_applyHeaderTable_mem (tbl : List (String × String)) (b : Bool)
    (h : HMap) (q v : String) (hmem : (q, v) ∈ tbl)
    (hnodup : (tbl.map Prod.fst).Nodup)
    (hcond : b = true ∨ PROTOCOL_CRITICAL_HEADERS.contains q = true) :
    hget (applyHeaderTable tbl b h) q = some v := by
  obtain ⟨T1, T2, rfl⟩ := List.append_of_mem hmem
  have h2 : (q :: T2.map Prod.fst).Nodup := by
    rw [List.map_append, List.map_cons] at hnodup
    exact (List.nodup_append.mp hnodup).2.1
  have hq2 : ∀ e ∈ T2, e.1 ≠ q := by
    intro e he habs
    exact (List.nodup_cons.mp h2).1 (List.mem_map.mpr ⟨e, he, habs⟩)
  exact hget_applyHeaderTable_hit T1 T2 b h q v hq2 hcond

/-- Protocol-critical names carry their table value after the pipeline. -/
theorem hget_normalizeHeadersPipe_critical (h : HMap) (rule : ModelRule)
    (q v : String) (hmem : (q, v) ∈ CLAUDE_CODE_HEADERS)
    (hcrit : PROTOCOL_CRITICAL_HEADERS.contains q = true)
    (hq_cl : q ≠ "content-length")
    (hq_auth : q ≠ "authorization") (hq_api : q ≠ "x-api-key") :
    hget (normalizeHeadersPipe h rule) q = some v := by
  unfold normalizeHeadersPipe applyClaudeCodeHeaders
  rw [hget_hdel, if_neg hq_cl, hget_authHeaderStep_other _ _ hq_auth hq_api]
  exact hget_applyHeaderTable_mem _ _ _ _ _ hmem (by decide) (Or.inr hcrit)

theorem authHeaderStep_converts (h : HMap) (k : String)
    (hk : hget h "x-api-key" = some k) (hk0 : k ≠ "")
    (hauth : jsTruthyStr (hget h "authorization") = false) :
    hget (authHeaderStep h) "authorization" = some ("Bearer " ++ k)
    ∧ hget (authHeaderStep h) "x-api-key" = none := by
  unfold authHeaderStep
  split
  · rename_i k' heq
    rw [hk] at heq
    injection heq with hk'
    subst hk'
    rw [if_pos (by simp [hk0, hauth])]
    constructor
    · rw [hget_hdel, if_neg (by decide), hget_hset, if_pos rfl]
    · rw [hget_hdel, if_pos rfl]
  · rename_i heq
    rw [hk] at heq
    cases heq

theorem makeApiCallHeaders_eq_hdel (h : HMap) :
    makeApiCallHeaders h = hdel h "content-length" := rfl

/-- Under the activation guard, `normalizeRequest` returns the composed
header and body pipelines with `normalized = true`. -/
theorem normalizeRequest_normalized (sit : String) (ccTools : List Json)
    (u1 u2 host : String) (h : HMap) (fs : List (String × Json)) (bt : String)
    (model : String) (rule : ModelRule)
    (hhost : isAnyrouterTarget host = true)
    (hmodel : lookupField fs "model" = some (.str model))
    (hrule : findMatchingRule model = some rule) :
    normalizeRequest sit ccTools u1 u2 host h (.obj fs) bt
      = { headers := normalizeHeadersPipe h rule,
          body := .obj (normalizeBodyFields sit ccTools u1 u2 rule
            (if rule.requireClaudeCodeIdentity then isClaudeCodeCliRequest h fs
             else false) fs),
          bodyText := Json.stringify (.obj (normalizeBodyFields sit ccTools u1 u2
            rule (if rule.requireClaudeCodeIdentity then
              isClaudeCodeCliRequest h fs else false) fs)),
          normalized := true } := by
  simp [normalizeRequest, hhost, hmodel, hrule]

theorem normalizeHeadersPipe_auth (h : HMap) (rule : ModelRule) (k : String)
    (hk : hget h "x-api-key" = some k) (hk0 : k ≠ "")
    (hauth : hget h "authorization" = none) :
    hget (normalizeHeadersPipe h rule) "authorization" = some ("Bearer " ++ k)
    ∧ hget (normalizeHeadersPipe h rule) "x-api-key" = none := by
  have hx2 : hget (applyHeaderTable CLAUDE_CODE_HEADERS
      (!strStartsWith ((hget h "user-agent").getD "") "claude-cli/")
      (List.foldl hdel (hset h "anthropic-beta"
        (mergeBetaFlags (hget h "anthropic-beta") rule.requiredBetaFlags))
        BROWSER_FINGERPRINT_HEADERS)) "x-api-key" = some k := by
    rw [hget_applyHeaderTable_notMem _ _ _ _ (by decide),
      hget_foldl_hdel_notMem _ _ _ (by decide), hget_hset, if_neg (by decide), hk]
  have ha2 : hget (applyHeaderTable CLAUDE_CODE_HEADERS
      (!strStartsWith ((hget h "user-agent").getD "") "claude-cli/")
      (List.foldl hdel (hset h "anthropic-beta"
        (mergeBetaFlags (hget h "anthropic-beta") rule.requiredBetaFlags))
        BROWSER_FINGERPRINT_HEADERS)) "authorization" = none := by
    rw [hget_applyHeaderTable_notMem _ _ _ _ (by decide),
      hget_foldl_hdel_notMem _ _ _ (by decide), hget_hset, if_neg (by decide), hauth]
  unfold normalizeHeadersPipe applyClaudeCodeHeaders stripBrowserHeaders
  obtain ⟨c1, c2⟩ := authHeaderStep_converts _ k hx2 hk0 (by rw [ha2]; rfl)
  exact ⟨by rw [hget_hdel, if_neg (by decide)]; exact c1,
    by rw [hget_hdel, if_neg (by decide)]; exact c2⟩

/-! ## Claim C6 — header invariants at dispatch -/

/-- C6 (amended): for every request satisfying the activation guard, after
normalization and at the moment of dispatch (`makeApiCall` deletes
`content-length` again before `fetch`): every fingerprint-blocklist header is
absent; every protocol-critical header carries its table value;
`content-length` is absent; and if `x-api-key` was present with a non-empty
value while `authorization` was absent, then `authorization` is
`Bearer <x-api-key>` and `x-api-key` is absent.  (The non-empty qualifier is
what the counterexample forces: the source guards the conversion with JS
truthiness of the header value, so an empty `x-api-key` is not converted.) -/
theorem normalizeRequest_header_invariants (sit : String) (ccTools : List Json)
    (u1 u2 host : String) (h : HMap) (fs : List (String × Json)) (bt : String)
    (model : String) (rule : ModelRule)
    (hhost : isAnyrouterTarget host = true)
    (hmodel : lookupField fs "model" = some (.str model))
    (hrule : findMatchingRule model = some rule) :
    (∀ q ∈ BROWSER_FINGERPRINT_HEADERS,
      hget (makeApiCallHeaders
        ((normalizeRequest sit ccTools u1 u2 host h (.obj fs) bt).headers)) q = none)
    ∧ (∀ e ∈ CLAUDE_CODE_HEADERS, PROTOCOL_CRITICAL_HEADERS.contains e.1 = true →
      hget (makeApiCallHeaders
        ((normalizeRequest sit ccTools u1 u2 host h (.obj fs) bt).headers)) e.1
        = some e.2)
    ∧ hget (makeApiCallHeaders
        ((normalizeRequest sit ccTools u1 u2 host h (.obj fs) bt).headers))
        "content-length" = none
    ∧ (∀ k, hget h "x-api-key" = some k → k ≠ "" →
        hget h "authorization" = none →
        hget (makeApiCallHeaders
          ((normalizeRequest sit ccTools u1 u2 host h (.obj fs) bt).headers))
          "authorization" = some ("Bearer " ++ k)
        ∧ hget (makeApiCallHeaders
          ((normalizeRequest sit ccTools u1 u2 host h (.obj fs) bt).headers))
          "x-api-key" = none) := by
  rw [normalizeRequest_normalized sit ccTools u1 u2 host h fs bt model rule
    hhost hmodel hrule]
  simp only [makeApiCallHeaders_eq_hdel]
  refine ⟨?_, ?_, ?_, ?_⟩
  · intro q hq
    have hbl : ∀ q ∈ BROWSER_FINGERPRINT_HEADERS,
        (∀ e ∈ CLAUDE_CODE_HEADERS, e.1 ≠ q) ∧ q ≠ "content-length" ∧
          q ≠ "authorization" ∧ q ≠ "x-api-key" := by decide
    obtain ⟨htbl, hcl, hau, hap⟩ := hbl q hq
    rw [hget_hdel, if_neg hcl,
      hget_normalizeHeadersPipe_fingerprint h rule q hq htbl hcl hau hap]
  · intro e he hcrit
    have hne : ∀ e ∈ CLAUDE_CODE_HEADERS, e.1 ≠ "content-length" ∧
        e.1 ≠ "authorization" ∧ e.1 ≠ "x-api-key" := by decide
    obtain ⟨hcl, hau, hap⟩ := hne e he
    rw [hget_hdel, if_neg hcl]
    exact hget_normalizeHeadersPipe_critical h rule e.1 e.2
      (by simpa using he) hcrit hcl hau hap
  · rw [hget_hdel, if_pos rfl]
  · intro k hk hk0 hauth
    obtain ⟨c1, c2⟩ := normalizeHeadersPipe_auth h rule k hk hk0 hauth
    exact ⟨by rw [hget_hdel, if_neg (by decide)]; exact c1,
      by rw [hget_hdel, if_neg (by decide)]; exact c2⟩

/-- C6, counterexample to the unamended claim: an `x-api-key` present with
the empty-string value and no `authorization` is not converted to a Bearer
header (the source's truthiness guard rejects `''`), and the key survives to
dispatch. -/
theorem normalizeRequest_empty_api_key_counterexample :
    ¬(hget (makeApiCallHeaders
        ((normalizeRequest "I" [] "u" "v" "anyrouter.top"
          [("x-api-key", "")] (.obj [("model", .str "claude-3-haiku")])
          "t").headers)) "authorization" = some "Bearer "
      ∧ hget (makeApiCallHeaders
        ((normalizeRequest "I" [] "u" "v" "anyrouter.top"
          [("x-api-key", "")] (.obj [("model", .str "claude-3-haiku")])
          "t").headers)) "x-api-key" = none) := by
  decide

/-- C6 witness. -/
theorem normalizeRequest_header_invariants_witness :
    hget (makeApiCallHeaders
        ((normalizeRequest "I" [] "u" "v" "anyrouter.top"
          [("x-api-key", "secret")] (.obj [("model", .str "claude-3-haiku")])
          "t").headers)) "authorization" = some "Bearer secret" :=
  ((normalizeRequest_header_invariants "I" [] "u" "v" "anyrouter.top"
      [("x-api-key", "secret")] [("model", .str "claude-3-haiku")] "t"
      "claude-3-haiku"
      { keyword := "haiku",
        requiredBetaFlags :=
          ["interleaved-thinking-2025-05-14", "prompt-caching-scope-2026-01-05"],
        thinking := none, removeTemperature := false,
        requireClaudeCodeIdentity := false }
      (by decide) rfl rfl).2.2.2 "secret" rfl (by decide) rfl).1

/-! ## Claim C9 — stream preserved, max_tokens defaulted -/

theorem lookupField_identityToolsMetadata_frame (ccTools : List Json)
    (u1 u2 : String) (fsA : List (String × Json)) (q : String)
    (hq1 : q ≠ "tools") (hq2 : q ≠ "metadata") :
    lookupField (identityToolsMetadata ccTools u1 u2 fsA) q = lookupField fsA q := by
  unfold identityToolsMetadata
  rw [lookupField_setField, if_neg hq2]
  split <;> (try split) <;> simp [lookupField_setField, hq1]


theorem lookupField_haikuBodyDefaults_frame (fs : List (String × Json))
    (q : String) (hsys : q ≠ "system") (ht : q ≠ "tools") (hm : q ≠ "metadata") :
    lookupField (haikuBodyDefaults fs) q = lookupField fs q := by
  unfold haikuBodyDefaults
  have hmeta : ∀ fs2 : List (String × Json),
      lookupField (if jsTruthyOpt (lookupField fs2 "metadata") = true then fs2
        else setField fs2 "metadata" (.obj [("user_id", .str "normalized-request")])) q
        = lookupField fs2 q := by
    intro fs2
    split <;> simp [lookupField_setField, hm]
  have htools : ∀ fs1 : List (String × Json),
      lookupField (match lookupField fs1 "tools" with
        | some (.arr _) => fs1
        | _ => setField fs1 "tools" (.arr [])) q = lookupField fs1 q := by
    intro fs1
    split <;> simp [lookupField_setField, ht]
  rw [hmeta, htools]
  split <;> simp [lookupField_setField, hsys]

/-- Field-get frame through the body pipeline before the `max_tokens`
default, for keys none of its steps write. -/
theorem lookupField_normalizeBodyPreMax_frame (sit : String)
    (ccTools : List Json) (u1 u2 : String) (rule : ModelRule) (isCli : Bool)
    (fs : List (String × Json)) (q : String)
    (hq1 : q ≠ "thinking") (hq2 : q ≠ "temperature") (hq3 : q ≠ "system")
    (hq4 : q ≠ "tools") (hq5 : q ≠ "metadata") :
    lookupField (normalizeBodyPreMax sit ccTools u1 u2 rule isCli fs) q
      = lookupField fs q := by
  simp only [normalizeBodyPreMax]
  have hstep12 : ∀ fs' : List (String × Json),
      lookupField
        (if rule.removeTemperature then
          delField (match rule.thinking with
            | some t => setField fs' "thinking" t
            | none => delField fs' "thinking") "temperature"
         else (match rule.thinking with
            | some t => setField fs' "thinking" t
            | none => delField fs' "thinking")) q = lookupField fs' q := by
    intro fs'
    rcases rule.thinking with _ | t <;> split <;>
      simp [lookupField_setField, lookupField_delField, hq1, hq2]
  split
  · rw [lookupField_identityToolsMetadata_frame _ _ _ _ _ hq4 hq5,
      lookupField_setField, if_neg hq3, hstep12]
  · split
    · rw [lookupField_identityToolsMetadata_frame _ _ _ _ _ hq4 hq5,
        lookupField_setField, if_neg hq3, hstep12]
    · rw [lookupField_haikuBodyDefaults_frame _ _ hq3 hq4 hq5, hstep12]

theorem lookupField_normalizeBodyFields_frame (sit : String)
    (ccTools : List Json) (u1 u2 : String) (rule : ModelRule) (isCli : Bool)
    (fs : List (String × Json)) (q : String)
    (hq1 : q ≠ "thinking") (hq2 : q ≠ "temperature") (hq3 : q ≠ "system")
    (hq4 : q ≠ "tools") (hq5 : q ≠ "metadata") (hq6 : q ≠ "max_tokens") :
    lookupField (normalizeBodyFields sit ccTools u1 u2 rule isCli fs) q
      = lookupField fs q := by
  simp only [normalizeBodyFields]
  have hpre := lookupField_normalizeBodyPreMax_frame sit ccTools u1 u2 rule
    isCli fs q hq1 hq2 hq3 hq4 hq5
  split <;> simp [lookupField_setField, hq6, hpre]

/-- C9: under the activation guard the normalizer never writes `stream` (an
absent value stays absent, `false` stays `false`, `true` stays `true`), and
it sets `max_tokens` to 32000 exactly when the incoming value is JS-falsy,
leaving any truthy value unchanged. -/
theorem normalizeRequest_stream_maxTokens (sit : String) (ccTools : List Json)
    (u1 u2 host : String) (h : HMap) (fs : List (String × Json)) (bt : String)
    (model : String) (rule : ModelRule)
    (hhost : isAnyrouterTarget host = true)
    (hmodel : lookupField fs "model" = some (.str model))
    (hrule : findMatchingRule model = some rule) :
    lookupField (objFields
        (normalizeRequest sit ccTools u1 u2 host h (.obj fs) bt).body) "stream"
      = lookupField fs "stream"
    ∧ lookupField (objFields
        (normalizeRequest sit ccTools u1 u2 host h (.obj fs) bt).body) "max_tokens"
      = (if jsTruthyOpt (lookupField fs "max_tokens") = true then
          lookupField fs "max_tokens"
        else some (.num 32000)) := by
  rw [normalizeRequest_normalized sit ccTools u1 u2 host h fs bt model rule
    hhost hmodel hrule]
  simp only [objFields]
  generalize (if rule.requireClaudeCodeIdentity = true then
    isClaudeCodeCliRequest h fs else false) = cli
  constructor
  · exact lookupField_normalizeBodyFields_frame sit ccTools u1 u2 rule cli fs
      "stream" (by decide) (by decide) (by decide) (by decide) (by decide)
      (by decide)
  · have hpre := lookupField_normalizeBodyPreMax_frame sit ccTools u1 u2 rule
      cli fs "max_tokens"
      (by decide) (by decide) (by decide) (by decide) (by decide)
    simp only [normalizeBodyFields]
    split
    · rename_i hc
      rw [hpre] at hc
      simp [hpre, hc]
    · rename_i hc
      rw [hpre] at hc
      simp [lookupField_setField, hc]

/-- C9 witness: a haiku request with `stream = false` and no `max_tokens`. -/
theorem normalizeRequest_stream_maxTokens_witness :
    lookupField (objFields
        (normalizeRequest "I" [] "u" "v" "anyrouter.top" []
          (.obj [("model", .str "claude-3-haiku"), ("stream", .bool false)])
          "t").body) "stream"
      = some (.bool false) :=
  (normalizeRequest_stream_maxTokens "I" [] "u" "v" "anyrouter.top" []
      [("model", .str "claude-3-haiku"), ("stream", .bool false)] "t"
      "claude-3-haiku"
      { keyword := "haiku",
        requiredBetaFlags :=
          ["interleaved-thinking-2025-05-14", "prompt-caching-scope-2026-01-05"],
        thinking := none, removeTemperature := false,
        requireClaudeCodeIdentity := false }
      (by decide) rfl rfl).1

/-! ## Claim C5 — generic-client spoof scenario -/

theorem strData_append (a b : String) : (a ++ b).data = a.data ++ b.data := rfl

theorem takeWhile_append_all {p : Char → Bool} {l1 l2 : List Char}
    (h : ∀ x ∈ l1, p x = true) :
    (l1 ++ l2).takeWhile p = l1 ++ l2.takeWhile p := by
  induction l1 with
  | nil => rfl
  | cons x xs ih =>
    simp only [List.cons_append, List.takeWhile_cons,
      h x (List.mem_cons_self x xs), if_pos]
    rw [ih (fun y hy => h y (List.mem_cons_of_mem x hy))]

/-- The generated user id matches `CLAUDE_CODE_USER_ID_PATTERN` whenever the
UUID oracles are well-formed: the dash-stripped first UUID is a non-empty
hex run and the second is 36 characters over `[0-9a-f-]`. -/
theorem matchesUserIdPattern_build (u1 u2 : String)
    (h1 : u1.data.filter (fun c => c ≠ '-') ≠ [])
    (h2 : ∀ c ∈ u1.data.filter (fun c => c ≠ '-'), isHexLower c = true)
    (h3 : u2.data.length = 36)
    (h4 : ∀ c ∈ u2.data, (isHexLower c || c = '-') = true) :
    matchesUserIdPattern (buildClaudeCodeUserId u1 u2) = true := by
  have hdata : (buildClaudeCodeUserId u1 u2).data
      = "user_".data ++ (u1.data.filter (fun c => c ≠ '-')
        ++ ("_account__session_".data ++ u2.data)) := by
    simp [buildClaudeCodeUserId, strData_append]
  unfold matchesUserIdPattern
  rw [hdata]
  dsimp only
  have hpre : "user_".data.isPrefixOf
      ("user_".data ++ (u1.data.filter (fun c => c ≠ '-')
        ++ ("_account__session_".data ++ u2.data))) = true := by
    rw [List.isPrefixOf_iff_prefix]
    exact List.prefix_append _ _
  rw [if_pos hpre]
  have hlen : "user_".data.length = 5 := by decide
  rw [hlen]
  have hdrop : ("user_".data ++ (u1.data.filter (fun c => c ≠ '-')
      ++ ("_account__session_".data ++ u2.data))).drop 5
      = u1.data.filter (fun c => c ≠ '-')
        ++ ("_account__session_".data ++ u2.data) := by
    rw [show (5 : Nat) = "user_".data.length from rfl, List.drop_left]
  rw [hdrop]
  have htake : (u1.data.filter (fun c => c ≠ '-')
      ++ ("_account__session_".data ++ u2.data)).takeWhile isHexLower
      = u1.data.filter (fun c => c ≠ '-') := by
    rw [takeWhile_append_all h2]
    simp [List.takeWhile_cons, isHexLower]
  rw [htake]
  have hdrop2 : (u1.data.filter (fun c => c ≠ '-')
      ++ ("_account__session_".data ++ u2.data)).drop
        (u1.data.filter (fun c => c ≠ '-')).length
      = "_account__session_".data ++ u2.data := List.drop_left _ _
  rw [hdrop2]
  have hmid : "_account__session_".data.isPrefixOf
      ("_account__session_".data ++ u2.data) = true := by
    rw [List.isPrefixOf_iff_prefix]
    exact List.prefix_append _ _
  have hmidlen : "_account__session_".data.length = 18 := by decide
  have hdrop3 : ("_account__session_".data ++ u2.data).drop 18 = u2.data := by
    rw [show (18 : Nat) = "_account__session_".data.length from rfl,
      List.drop_left]
  simp only [hmid, hmidlen, hdrop3, Bool.and_eq_true, decide_eq_true_eq]
  refine ⟨⟨by simpa [List.length_pos] using h1, trivial⟩, by simpa using h3, ?_⟩
  rw [List.all_eq_true]
  intro c hc
  simpa using h4 c hc

/-- When the body carried no (object) metadata, the identity paths install a
metadata object holding exactly the freshly generated user id. -/
theorem identityToolsMetadata_metadata (ccTools : List Json) (u1 u2 : String)
    (fsA : List (String × Json)) (hmd : lookupField fsA "metadata" = none) :
    lookupField (identityToolsMetadata ccTools u1 u2 fsA) "metadata"
      = some (.obj [("user_id", .str (buildClaudeCodeUserId u1 u2))]) := by
  unfold identityToolsMetadata
  rw [lookupField_setField, if_pos rfl]
  have hfs1 : lookupField (match lookupField fsA "tools" with
      | some (.arr ts) =>
        if ts.isEmpty then setField fsA "tools" (.arr ccTools) else fsA
      | _ => setField fsA "tools" (.arr ccTools)) "metadata" = none := by
    split
    · split
      · rw [lookupField_setField, if_neg (by decide)]
        exact hmd
      · exact hmd
    · rw [lookupField_setField, if_neg (by decide)]
      exact hmd
  rw [hfs1]
  simp [hasValidUserId, lookupField, setField]

/-- Table headers overwritten for non-CLI callers: when the original
`user-agent` does not start with `claude-cli/`, every table entry is set. -/
theorem hget_normalizeHeadersPipe_overwritten (h : HMap) (rule : ModelRule)
    (q v : String) (hmem : (q, v) ∈ CLAUDE_CODE_HEADERS)
    (hua : strStartsWith ((hget h "user-agent").getD "") "claude-cli/" = false)
    (hq_cl : q ≠ "content-length")
    (hq_auth : q ≠ "authorization") (hq_api : q ≠ "x-api-key") :
    hget (normalizeHeadersPipe h rule) q = some v := by
  unfold normalizeHeadersPipe applyClaudeCodeHeaders
  rw [hget_hdel, if_neg hq_cl, hget_authHeaderStep_other _ _ hq_auth hq_api, hua]
  exact hget_applyHeaderTable_mem _ _ _ _ _ hmem (by decide) (Or.inl (by decide))

/-- C5: a request to the identity-sensitive host whose model matches an
identity-requiring rule, not CLI-shaped (browser user-agent, no
`claude-code-20250219` flag, no billing sentinel — the client system prompt
is the plain string and contains none), with
`body.system = "You are a helpful assistant."`: normalization overwrites
`user-agent` with the canonical CLI value, strips every browser fingerprint
header, rewrites `body.system` to exactly
`[identityBlock, instructionsBlock, {type: text, text: client prompt}]`, and
sets `body.metadata.user_id` to a string matching
`user_[a-f0-9]+_account__session_[0-9a-f-]\x7b36\x7d`. -/
theorem normalizeRequest_generic_spoof (sit : String) (ccTools : List Json)
    (u1 u2 host : String) (h : HMap) (bt model ua : String) (rule : ModelRule)
    (hhost : isAnyrouterTarget host = true)
    (hrule : findMatchingRule model = some rule)
    (hreq : rule.requireClaudeCodeIdentity = true)
    (hua : hget h "user-agent" = some ua)
    (hmoz : strStartsWith ua "Mozilla/5.0" = true)
    (hnotcli : strStartsWith ua "claude-cli/" = false)
    (hbeta : ((splitComma ((hget h "anthropic-beta").getD "")).map
        trimStr).contains "claude-code-20250219" = false)
    (h1 : u1.data.filter (fun c => c ≠ '-') ≠ [])
    (h2 : ∀ c ∈ u1.data.filter (fun c => c ≠ '-'), isHexLower c = true)
    (h3 : u2.data.length = 36)
    (h4 : ∀ c ∈ u2.data, (isHexLower c || c = '-') = true) :
    hget (normalizeRequest sit ccTools u1 u2 host h
        (.obj [("model", .str model),
               ("system", .str "You are a helpful assistant.")]) bt).headers
        "user-agent" = some "claude-cli/2.1.59 (external, sdk-ts)"
    ∧ (∀ q ∈ BROWSER_FINGERPRINT_HEADERS,
        hget (normalizeRequest sit ccTools u1 u2 host h
          (.obj [("model", .str model),
                 ("system", .str "You are a helpful assistant.")]) bt).headers
          q = none)
    ∧ lookupField (objFields (normalizeRequest sit ccTools u1 u2 host h
        (.obj [("model", .str model),
               ("system", .str "You are a helpful assistant.")]) bt).body)
        "system"
      = some (.arr [identityBlock, instructionsBlock sit,
          .obj [("type", .str "text"),
                ("text", .str "You are a helpful assistant.")]])
    ∧ lookupField (objFields (normalizeRequest sit ccTools u1 u2 host h
        (.obj [("model", .str model),
               ("system", .str "You are a helpful assistant.")]) bt).body)
        "metadata"
      = some (.obj [("user_id", .str (buildClaudeCodeUserId u1 u2))])
    ∧ matchesUserIdPattern (buildClaudeCodeUserId u1 u2) = true := by
  have hmodel : lookupField [("model", Json.str model),
      ("system", Json.str "You are a helpful assistant.")] "model"
      = some (.str model) := by
    simp [lookupField]
  rw [normalizeRequest_normalized sit ccTools u1 u2 host h _ bt model rule
    hhost hmodel hrule]
  have hua' : strStartsWith ((hget h "user-agent").getD "") "claude-cli/" = false := by
    rw [hua]
    exact hnotcli
  have hiscli : isClaudeCodeCliRequest h [("model", Json.str model),
      ("system", Json.str "You are a helpful assistant.")] = false := by
    simp only [isClaudeCodeCliRequest]
    rw [hbeta]
    simp only [Bool.false_eq_true, if_false]
    rw [show lookupField [("model", Json.str model),
        ("system", Json.str "You are a helpful assistant.")] "system"
        = some (Json.str "You are a helpful assistant.") from by simp [lookupField]]
    rw [if_neg (by decide)]
    rw [hua]
    exact hnotcli
  have hclieq : (if rule.requireClaudeCodeIdentity = true then
      isClaudeCodeCliRequest h [("model", Json.str model),
        ("system", Json.str "You are a helpful assistant.")]
    else false) = false := by
    rw [if_pos hreq, hiscli]
  rw [hclieq]
  refine ⟨?_, ?_, ?_, ?_, matchesUserIdPattern_build u1 u2 h1 h2 h3 h4⟩
  · exact hget_normalizeHeadersPipe_overwritten h rule "user-agent"
      "claude-cli/2.1.59 (external, sdk-ts)" (by decide) hua'
      (by decide) (by decide) (by decide)
  · intro q hq
    have hbl : ∀ q ∈ BROWSER_FINGERPRINT_HEADERS,
        (∀ e ∈ CLAUDE_CODE_HEADERS, e.1 ≠ q) ∧ q ≠ "content-length" ∧
          q ≠ "authorization" ∧ q ≠ "x-api-key" := by decide
    obtain ⟨htbl, hcl, hau, hap⟩ := hbl q hq
    exact hget_normalizeHeadersPipe_fingerprint h rule q hq htbl hcl hau hap
  · simp only [objFields]
    have hsys3 : lookupField (normalizeBodyPreMax sit ccTools u1 u2 rule false
        [("model", Json.str model),
         ("system", Json.str "You are a helpful assistant.")]) "system"
        = some (.arr [identityBlock, instructionsBlock sit,
            .obj [("type", .str "text"),
                  ("text", .str "You are a helpful assistant.")]]) := by
      simp only [normalizeBodyPreMax, hreq, Bool.and_false, Bool.and_true,
        Bool.not_false, Bool.false_eq_true, if_false, if_true]
      have hstep12 : lookupField
          (if rule.removeTemperature = true then
            delField (match rule.thinking with
              | some t => setField [("model", Json.str model),
                  ("system", Json.str "You are a helpful assistant.")] "thinking" t
              | none => delField [("model", Json.str model),
                  ("system", Json.str "You are a helpful assistant.")] "thinking")
              "temperature"
           else (match rule.thinking with
              | some t => setField [("model", Json.str model),
                  ("system", Json.str "You are a helpful assistant.")] "thinking" t
              | none => delField [("model", Json.str model),
                  ("system", Json.str "You are a helpful assistant.")] "thinking"))
          "system" = some (.str "You are a helpful assistant.") := by
        rcases rule.thinking with _ | t <;> split <;>
          simp [lookupField_setField, lookupField_delField, lookupField]
      rw [lookupField_identityToolsMetadata_frame _ _ _ _ _ (by decide) (by decide),
        lookupField_setField, if_pos rfl, hstep12]
      have hgen : genericSystemRewrite sit (normalizeSystemToArray
          (some (.str "You are a helpful assistant.")))
          = [identityBlock, instructionsBlock sit,
             .obj [("type", .str "text"),
                   ("text", .str "You are a helpful assistant.")]] := by
        rfl
      rw [hgen]
    have hmax3 : lookupField (normalizeBodyPreMax sit ccTools u1 u2 rule false
        [("model", Json.str model),
         ("system", Json.str "You are a helpful assistant.")]) "max_tokens"
        = none := by
      rw [lookupField_normalizeBodyPreMax_frame sit ccTools u1 u2 rule false _
        "max_tokens" (by decide) (by decide) (by decide) (by decide) (by decide)]
      simp [lookupField]
    simp only [normalizeBodyFields, hmax3, jsTruthyOpt, Bool.false_eq_true, if_false]
    rw [lookupField_setField, if_neg (by decide), hsys3]
  · simp only [objFields]
    have hmd3 : lookupField (normalizeBodyPreMax sit ccTools u1 u2 rule false
        [("model", Json.str model),
         ("system", Json.str "You are a helpful assistant.")]) "metadata"
        = some (.obj [("user_id", .str (buildClaudeCodeUserId u1 u2))]) := by
      simp only [normalizeBodyPreMax, hreq, Bool.and_false, Bool.and_true,
        Bool.not_false, Bool.false_eq_true, if_false, if_true]
      refine identityToolsMetadata_metadata ccTools u1 u2 _ ?_
      rw [lookupField_setField, if_neg (by decide)]
      rcases rule.thinking with _ | t <;> split <;>
        simp [lookupField_setField, lookupField_delField, lookupField]
    have hmax3 : lookupField (normalizeBodyPreMax sit ccTools u1 u2 rule false
        [("model", Json.str model),
         ("system", Json.str "You are a helpful assistant.")]) "max_tokens"
        = none := by
      rw [lookupField_normalizeBodyPreMax_frame sit ccTools u1 u2 rule false _
        "max_tokens" (by decide) (by decide) (by decide) (by decide) (by decide)]
      simp [lookupField]
    simp only [normalizeBodyFields, hmax3, jsTruthyOpt, Bool.false_eq_true, if_false]
    rw [lookupField_setField, if_neg (by decide), hmd3]

theorem normalizeRequest_generic_spoof_witness :
    hget (normalizeRequest "I" [] "aabbccdd-1122-3344-5566-77889900aabb"
        "aabbccdd-1122-3344-5566-77889900aabb" "anyrouter.top"
        [("user-agent", "Mozilla/5.0")]
        (.obj [("model", .str "sonnet"),
               ("system", .str "You are a helpful assistant.")]) "t").headers
        "user-agent" = some "claude-cli/2.1.59 (external, sdk-ts)"
    ∧ hget (normalizeRequest "I" [] "aabbccdd-1122-3344-5566-77889900aabb"
        "aabbccdd-1122-3344-5566-77889900aabb" "anyrouter.top"
        [("user-agent", "Mozilla/5.0")]
        (.obj [("model", .str "sonnet"),
               ("system", .str "You are a helpful assistant.")]) "t").headers
        "sec-ch-ua" = none
    ∧ lookupField (objFields (normalizeRequest "I" []
        "aabbccdd-1122-3344-5566-77889900aabb"
        "aabbccdd-1122-3344-5566-77889900aabb" "anyrouter.top"
        [("user-agent", "Mozilla/5.0")]
        (.obj [("model", .str "sonnet"),
               ("system", .str "You are a helpful assistant.")]) "t").body)
        "system"
      = some (.arr [identityBlock, instructionsBlock "I",
          .obj [("type", .str "text"),
                ("text", .str "You are a helpful assistant.")]])
    ∧ lookupField (objFields (normalizeRequest "I" []
        "aabbccdd-1122-3344-5566-77889900aabb"
        "aabbccdd-1122-3344-5566-77889900aabb" "anyrouter.top"
        [("user-agent", "Mozilla/5.0")]
        (.obj [("model", .str "sonnet"),
               ("system", .str "You are a helpful assistant.")]) "t").body)
        "metadata"
      = some (.obj [("user_id", .str (buildClaudeCodeUserId
          "aabbccdd-1122-3344-5566-77889900aabb"
          "aabbccdd-1122-3344-5566-77889900aabb"))])
    ∧ matchesUserIdPattern (buildClaudeCodeUserId
        "aabbccdd-1122-3344-5566-77889900aabb"
        "aabbccdd-1122-3344-5566-77889900aabb") = true :=
  have W := normalizeRequest_generic_spoof "I" []
    "aabbccdd-1122-3344-5566-77889900aabb"
    "aabbccdd-1122-3344-5566-77889900aabb" "anyrouter.top"
    [("user-agent", "Mozilla/5.0")] "t" "sonnet" "Mozilla/5.0"
    { keyword := "sonnet",
      requiredBetaFlags :=
        ["claude-code-20250219", "interleaved-thinking-2025-05-14",
         "prompt-caching-scope-2026-01-05", "effort-2025-11-24",
         "adaptive-thinking-2026-01-28"],
      thinking := some (.obj [("type", .str "adaptive")]),
      removeTemperature := true,
      requireClaudeCodeIdentity := true }
    (by decide) rfl rfl rfl (by decide) (by decide) (by decide)
    (by decide) (by decide) (by decide) (by decide)
  ⟨W.1, W.2.1 "sec-ch-ua" (by decide), W.2.2.1, W.2.2.2.1, W.2.2.2.2⟩

/-! ## Claim C7 — idempotence support: trim, split/join, beta merge -/

theorem dropWhile_head_not (p : Char → Bool) :
    ∀ (l : List Char) (c : Char), (l.dropWhile p).head? = some c → p c = false := by
  intro l
  induction l with
  | nil => intro c h; cases h
  | cons x xs ih =>
    intro c h
    rw [List.dropWhile_cons] at h
    split at h
    · exact ih c h
    · rename_i hx
      injection h with h
      subst h
      exact Bool.eq_false_iff.mpr hx

theorem dropWhile_eq_self_of_head (p : Char → Bool) (l : List Char)
    (h : ∀ c, l.head? = some c → p c = false) : l.dropWhile p = l := by
  cases l with
  | nil => rfl
  | cons x xs => simp [List.dropWhile_cons, h x rfl]

theorem trimChars_idem (l : List Char) : trimChars (trimChars l) = trimChars l := by
  have hshead : ∀ c, ((l.dropWhile isWsChar).reverse.dropWhile isWsChar).head? = some c →
      isWsChar c = false :=
    fun c hc => dropWhile_head_not isWsChar (l.dropWhile isWsChar).reverse c hc
  have hpre : ((l.dropWhile isWsChar).reverse.dropWhile isWsChar).reverse
      <+: l.dropWhile isWsChar := by
    have h2 : ((l.dropWhile isWsChar).reverse.dropWhile isWsChar).reverse
        <+: ((l.dropWhile isWsChar).reverse).reverse :=
      List.reverse_prefix.mpr (List.dropWhile_suffix _)
    simpa using h2
  have hthead : ∀ c,
      (((l.dropWhile isWsChar).reverse.dropWhile isWsChar).reverse).head? = some c →
      isWsChar c = false := by
    intro c hc
    obtain ⟨r, hr⟩ := hpre
    have hm : (l.dropWhile isWsChar).head? = some c := by
      rw [← hr]
      cases hcase : ((l.dropWhile isWsChar).reverse.dropWhile isWsChar).reverse with
      | nil => rw [hcase] at hc; cases hc
      | cons a as =>
        rw [hcase] at hc
        injection hc with hc
        subst hc
        rfl
    exact dropWhile_head_not isWsChar l c hm
  unfold trimChars dropLeadWs
  rw [dropWhile_eq_self_of_head isWsChar _ hthead, List.reverse_reverse,
    dropWhile_eq_self_of_head isWsChar _ hshead]

theorem trimStr_idem (s : String) : trimStr (trimStr s) = trimStr s :=
  congrArg String.mk (trimChars_idem s.data)

theorem mem_trimChars (l : List Char) (c : Char) (hc : c ∈ trimChars l) : c ∈ l := by
  unfold trimChars dropLeadWs at hc
  have h1 : c ∈ (l.dropWhile isWsChar).reverse.dropWhile isWsChar := by
    simpa using hc
  have h2 : c ∈ (l.dropWhile isWsChar).reverse := (List.dropWhile_suffix _).subset h1
  have h3 : c ∈ l.dropWhile isWsChar := by simpa using h2
  exact (List.dropWhile_suffix _).subset h3

theorem splitCommaChars_ne_nil (l : List Char) : splitCommaChars l ≠ [] := by
  induction l with
  | nil => simp [splitCommaChars]
  | cons c rest ih =>
    rcases hrest : splitCommaChars rest with _ | ⟨s0, ss⟩
    · exact absurd hrest ih
    · simp only [splitCommaChars, hrest]
      split <;> simp

theorem splitCommaChars_no_comma (l : List Char) :
    ∀ seg ∈ splitCommaChars l, ',' ∉ seg := by
  induction l with
  | nil =>
    intro seg hseg
    simp only [splitCommaChars, List.mem_singleton] at hseg
    subst hseg
    simp
  | cons c rest ih =>
    intro seg hseg
    rcases hrest : splitCommaChars rest with _ | ⟨s0, ss⟩
    · exact absurd hrest (splitCommaChars_ne_nil rest)
    · simp only [splitCommaChars, hrest] at hseg
      by_cases hc : c = ','
      · rw [if_pos hc] at hseg
        rcases List.mem_cons.mp hseg with rfl | h
        · simp
        · exact ih seg (by rw [hrest]; exact h)
      · rw [if_neg hc] at hseg
        rcases List.mem_cons.mp hseg with rfl | h
        · intro hmem
          rcases List.mem_cons.mp hmem with h' | h'
          · exact hc h'.symm
          · exact ih s0 (by rw [hrest]; exact List.mem_cons_self s0 ss) h'
        · exact ih seg (by rw [hrest]; exact List.mem_cons_of_mem s0 h)

theorem splitCommaChars_no_comma_eq (a : List Char) (ha : ',' ∉ a) :
    splitCommaChars a = [a] := by
  induction a with
  | nil => rfl
  | cons c a' ih =>
    have hc : ¬(c = ',') := fun h => ha (by rw [← h]; exact List.mem_cons_self c a')
    have ha' : ',' ∉ a' := fun h => ha (List.mem_cons_of_mem c h)
    simp only [splitCommaChars, ih ha', if_neg hc]

theorem splitCommaChars_append (a r : List Char) (ha : ',' ∉ a) :
    splitCommaChars (a ++ ',' :: r) = a :: splitCommaChars r := by
  induction a with
  | nil => simp [splitCommaChars]
  | cons c a' ih =>
    have hc : ¬(c = ',') := fun h => ha (by rw [← h]; exact List.mem_cons_self c a')
    have ha' : ',' ∉ a' := fun h => ha (List.mem_cons_of_mem c h)
    simp only [List.cons_append, splitCommaChars, List.append_eq, ih ha', if_neg hc]

theorem splitComma_joinComma (M : List String) (hne : M ≠ [])
    (hcf : ∀ s ∈ M, ',' ∉ s.data) : splitComma (joinComma M) = M := by
  induction M with
  | nil => exact absurd rfl hne
  | cons s rest ih =>
    cases rest with
    | nil =>
      show splitComma (joinComma [s]) = [s]
      unfold splitComma
      rw [show joinComma [s] = s from rfl,
        splitCommaChars_no_comma_eq s.data (hcf s (List.mem_cons_self _ _))]
      rfl
    | cons t ts =>
      have hj : (joinComma (s :: t :: ts)).data
          = s.data ++ ',' :: (joinComma (t :: ts)).data := by
        rw [show joinComma (s :: t :: ts) = s ++ "," ++ joinComma (t :: ts) from rfl,
          strData_append, strData_append, List.append_assoc]
        rfl
      have hih := ih (by simp) (fun x hx => hcf x (List.mem_cons_of_mem _ hx))
      unfold splitComma at hih ⊢
      rw [hj, splitCommaChars_append _ _ (hcf s (List.mem_cons_self _ _)),
        List.map_cons, hih]

theorem mem_foldl_addUnique_inv (l : List String) :
    ∀ (acc : List String) (y : String),
      y ∈ l.foldl addUnique acc → y ∈ acc ∨ y ∈ l := by
  induction l with
  | nil => intro acc y h; exact Or.inl h
  | cons x xs ih =>
    intro acc y h
    rcases ih (addUnique acc x) y h with h' | h'
    · rcases mem_addUnique.mp h' with h'' | rfl
      · exact Or.inl h''
      · exact Or.inr (List.mem_cons_self _ _)
    · exact Or.inr (List.mem_cons_of_mem _ h')

theorem foldl_addUnique_nodup (l : List String) :
    ∀ acc : List String, (acc ++ l).Nodup → l.foldl addUnique acc = acc ++ l := by
  induction l with
  | nil => intro acc _; simp
  | cons x xs ih =>
    intro acc hnd
    have hx : x ∉ acc := by
      intro hx
      rw [List.nodup_append] at hnd
      exact hnd.2.2 hx (List.mem_cons_self _ _)
    have hone : addUnique acc x = acc ++ [x] := by
      unfold addUnique
      rw [if_neg hx]
    rw [List.foldl_cons, hone, ih (acc ++ [x]) (by simpa using hnd)]
    simp

theorem dedupKeepFirst_of_nodup (l : List String) (h : l.Nodup) :
    dedupKeepFirst l = l := by
  unfold dedupKeepFirst
  rw [foldl_addUnique_nodup l [] (by simpa using h)]
  simp

theorem foldl_addUnique_all_mem (R : List String) :
    ∀ M : List String, (∀ r ∈ R, r ∈ M) → R.foldl addUnique M = M := by
  induction R with
  | nil => intro M _; rfl
  | cons r rs ih =>
    intro M hmem
    have hone : addUnique M r = M := by
      unfold addUnique
      rw [if_pos (hmem r (List.mem_cons_self _ _))]
    rw [List.foldl_cons, hone]
    exact ih M (fun x hx => hmem x (List.mem_cons_of_mem _ hx))

theorem cleanBetaTokens_wf (e : Option String) :
    ∀ f ∈ cleanBetaTokens e, 0 < f.length ∧ trimStr f = f ∧ ',' ∉ f.data := by
  intro f hf
  unfold cleanBetaTokens at hf
  rw [List.mem_filter] at hf
  obtain ⟨hf1, hlen⟩ := hf
  rw [List.mem_map] at hf1
  obtain ⟨x, hx, rfl⟩ := hf1
  refine ⟨by simpa using hlen, trimStr_idem x, ?_⟩
  intro hc
  have hcx : ',' ∈ x.data := mem_trimChars _ _ hc
  unfold splitComma at hx
  rw [List.mem_map] at hx
  obtain ⟨seg, hseg, rfl⟩ := hx
  exact splitCommaChars_no_comma _ seg hseg hcx

theorem mergeBetaFlags_idem (e : Option String) (R : List String)
    (hR : ∀ f ∈ R, 0 < f.length ∧ trimStr f = f ∧ ',' ∉ f.data) :
    mergeBetaFlags (some (mergeBetaFlags e R)) R = mergeBetaFlags e R := by
  unfold mergeBetaFlags
  dsimp only
  set M := R.foldl addUnique (dedupKeepFirst (cleanBetaTokens e)) with hM
  have hMnd : M.Nodup := by
    rw [hM]
    exact nodup_foldl_addUnique R _ (nodup_dedupKeepFirst _)
  have hMwf : ∀ f ∈ M, 0 < f.length ∧ trimStr f = f ∧ ',' ∉ f.data := by
    intro f hf
    rcases mem_foldl_addUnique_inv R _ f (by rw [← hM]; exact hf) with h' | h'
    · have hclean : f ∈ cleanBetaTokens e := by
        rcases mem_foldl_addUnique_inv (cleanBetaTokens e) [] f h' with h'' | h''
        · cases h''
        · exact h''
      exact cleanBetaTokens_wf e f hclean
    · exact hR f h'
  have hclean : cleanBetaTokens (some (joinComma M)) = M := by
    rcases hMc : M with _ | ⟨m0, ms⟩
    · rfl
    · rw [← hMc]
      unfold cleanBetaTokens
      rw [show (some (joinComma M)).getD "" = joinComma M from rfl,
        splitComma_joinComma M (by rw [hMc]; simp) (fun s hs => (hMwf s hs).2.2)]
      have hmap : M.map trimStr = M := by
        have h := List.map_congr_left (fun s hs => (hMwf s hs).2.1)
        rw [h]
        simp
      rw [hmap]
      exact List.filter_eq_self.mpr (fun a ha => by simpa using (hMwf a ha).1)
  rw [hclean, dedupKeepFirst_of_nodup M hMnd,
    foldl_addUnique_all_mem R M (fun r hr => by
      rw [hM]
      exact mem_foldl_addUnique_elem R _ r hr)]

/-! ## Claim C7 — idempotence support: header pipeline stability -/

theorem foldl_hdel_absent (L : List String) :
    ∀ h : HMap, (∀ q ∈ L, hget h q = none) → L.foldl hdel h = h := by
  induction L with
  | nil => intro h _; rfl
  | cons k rest ih =>
    intro h habs
    rw [List.foldl_cons, hdel_unchanged (habs k (List.mem_cons_self _ _))]
    exact ih h (fun q hq => habs q (List.mem_cons_of_mem _ hq))

theorem hhas_applyHeaderEntry (b : Bool) (h : HMap) (e : String × String) (q : String)
    (hq : hhas h q = true) : hhas (applyHeaderEntry b h e) q = true := by
  unfold applyHeaderEntry
  split
  · unfold hhas at hq ⊢
    rw [hget_hset]
    split
    · rfl
    · exact hq
  · exact hq

theorem hhas_applyHeaderTable_mono (tbl : List (String × String)) (b : Bool) :
    ∀ (h : HMap) (q : String), hhas h q = true →
      hhas (applyHeaderTable tbl b h) q = true := by
  induction tbl with
  | nil => intro h q hq; exact hq
  | cons e rest ih =>
    intro h q hq
    simp only [applyHeaderTable, List.foldl_cons]
    exact ih (applyHeaderEntry b h e) q (hhas_applyHeaderEntry b h e q hq)

theorem hhas_applyHeaderTable_mem (tbl : List (String × String)) (b : Bool) :
    ∀ (h : HMap) (q v : String), (q, v) ∈ tbl →
      hhas (applyHeaderTable tbl b h) q = true := by
  induction tbl with
  | nil => intro h q v hm; cases hm
  | cons e rest ih =>
    intro h q v hm
    simp only [applyHeaderTable, List.foldl_cons]
    rcases List.mem_cons.mp hm with heq | hm'
    · subst heq
      by_cases hh : hhas h q = true
      · exact hhas_applyHeaderTable_mono rest b _ q (hhas_applyHeaderEntry b h (q, v) q hh)
      · have hcond : (b || PROTOCOL_CRITICAL_HEADERS.contains q || !(hhas h q))
            = true := by
          rw [Bool.eq_false_iff.mpr hh]
          simp
        have hset1 : applyHeaderEntry b h (q, v) = hset h q v := by
          unfold applyHeaderEntry
          rw [if_pos hcond]
        rw [hset1]
        apply hhas_applyHeaderTable_mono
        unfold hhas
        rw [hget_hset, if_pos rfl]
        rfl
    · exact ih (applyHeaderEntry b h e) q v hm'

theorem hget_applyHeaderTable_present_notCrit (tbl : List (String × String)) :
    ∀ (h : HMap) (q v : String), hget h q = some v →
      PROTOCOL_CRITICAL_HEADERS.contains q = false →
      hget (applyHeaderTable tbl false h) q = hget h q := by
  induction tbl with
  | nil => intro h q v _ _; rfl
  | cons e rest ih =>
    intro h q v hv hcrit
    simp only [applyHeaderTable, List.foldl_cons]
    by_cases hq : e.1 = q
    · have hcond : (false || PROTOCOL_CRITICAL_HEADERS.contains e.1 || !(hhas h e.1))
          = false := by
        rw [hq, hcrit]
        unfold hhas
        rw [hv]
        rfl
      have hskip : applyHeaderEntry false h e = h := by
        unfold applyHeaderEntry
        rw [hcond, if_neg (by decide)]
      rw [hskip]
      exact ih h q v hv hcrit
    · have hpres : hget (applyHeaderEntry false h e) q = hget h q := by
        unfold applyHeaderEntry
        split
        · rw [hget_hset, if_neg (fun hh => hq hh.symm)]
        · rfl
      rw [show List.foldl (applyHeaderEntry false) (applyHeaderEntry false h e) rest
          = applyHeaderTable rest false (applyHeaderEntry false h e) from rfl,
        ih _ q v (by rw [hpres]; exact hv) hcrit, hpres]

theorem applyHeaderTable_stable (tbl : List (String × String)) :
    ∀ h : HMap, (∀ e ∈ tbl, hhas h e.1 = true) →
      (∀ e ∈ tbl, PROTOCOL_CRITICAL_HEADERS.contains e.1 = true → hget h e.1 = some e.2) →
      applyHeaderTable tbl false h = h := by
  induction tbl with
  | nil => intro h _ _; rfl
  | cons e rest ih =>
    intro h hpres hcrit
    have hone : applyHeaderEntry false h e = h := by
      by_cases hc : PROTOCOL_CRITICAL_HEADERS.contains e.1 = true
      · have hval : hget h e.1 = some e.2 := hcrit e (List.mem_cons_self _ _) hc
        unfold applyHeaderEntry
        split
        · exact hset_unchanged hval
        · rfl
      · have hcond : (false || PROTOCOL_CRITICAL_HEADERS.contains e.1 || !(hhas h e.1))
            = false := by
          rw [Bool.eq_false_iff.mpr hc, hpres e (List.mem_cons_self _ _)]
          rfl
        unfold applyHeaderEntry
        rw [hcond, if_neg (by decide)]
    simp only [applyHeaderTable, List.foldl_cons, hone]
    exact ih h (fun e' he' => hpres e' (List.mem_cons_of_mem _ he'))
      (fun e' he' => hcrit e' (List.mem_cons_of_mem _ he'))

theorem hget_normalizeHeadersPipe_beta (h : HMap) (rule : ModelRule) :
    hget (normalizeHeadersPipe h rule) "anthropic-beta"
      = some (mergeBetaFlags (hget h "anthropic-beta") rule.requiredBetaFlags) := by
  unfold normalizeHeadersPipe stripBrowserHeaders applyClaudeCodeHeaders
  rw [hget_hdel, if_neg (by decide),
    hget_authHeaderStep_other _ _ (by decide) (by decide),
    hget_applyHeaderTable_notMem _ _ _ _ (by decide),
    hget_foldl_hdel_notMem _ _ _ (by decide), hget_hset, if_pos rfl]

theorem normalizeHeadersPipe_cl_none (h : HMap) (rule : ModelRule) :
    hget (normalizeHeadersPipe h rule) "content-length" = none := by
  unfold normalizeHeadersPipe
  rw [hget_hdel, if_pos rfl]

theorem ua_cli_after_pipe (h : HMap) (rule : ModelRule) :
    strStartsWith ((hget (normalizeHeadersPipe h rule) "user-agent").getD "")
      "claude-cli/" = true := by
  by_cases hcli : strStartsWith ((hget h "user-agent").getD "") "claude-cli/" = true
  · rcases hgu : hget h "user-agent" with _ | u
    · rw [hgu] at hcli
      exact absurd hcli (by decide)
    · have hkeep : hget (normalizeHeadersPipe h rule) "user-agent" = some u := by
        unfold normalizeHeadersPipe stripBrowserHeaders applyClaudeCodeHeaders
        rw [hget_hdel, if_neg (by decide),
          hget_authHeaderStep_other _ _ (by decide) (by decide), hcli, Bool.not_true,
          hget_applyHeaderTable_present_notCrit CLAUDE_CODE_HEADERS _ "user-agent" u
            (by rw [hget_foldl_hdel_notMem _ _ _ (by decide), hget_hset,
              if_neg (by decide), hgu]) (by decide),
          hget_foldl_hdel_notMem _ _ _ (by decide), hget_hset, if_neg (by decide), hgu]
      rw [hkeep]
      rw [hgu] at hcli
      exact hcli
  · have hf : strStartsWith ((hget h "user-agent").getD "") "claude-cli/" = false :=
      Bool.eq_false_iff.mpr hcli
    rw [hget_normalizeHeadersPipe_overwritten h rule "user-agent"
      "claude-cli/2.1.59 (external, sdk-ts)" (by decide) hf
      (by decide) (by decide) (by decide)]
    decide

theorem authHeaderStep_of_none (g : HMap) (hx : hget g "x-api-key" = none) :
    authHeaderStep g = g := by
  unfold authHeaderStep
  split
  · rename_i a heq
    rw [hx] at heq
    cases heq
  · rfl

theorem authHeaderStep_of_guard_off (g : HMap) (a : String)
    (hx : hget g "x-api-key" = some a)
    (hg : (a ≠ "" && !(jsTruthyStr (hget g "authorization"))) = false) :
    authHeaderStep g = g := by
  unfold authHeaderStep
  split
  · rename_i a' heq
    rw [hx] at heq
    injection heq with heq
    subst heq
    rw [hg, if_neg (by decide)]
  · rfl

theorem authHeaderStep_trichotomy (g : HMap) :
    (hget g "x-api-key" = none ∧ authHeaderStep g = g)
    ∨ (∃ a, hget g "x-api-key" = some a
        ∧ (a ≠ "" && !(jsTruthyStr (hget g "authorization"))) = true
        ∧ authHeaderStep g
            = hdel (hset g "authorization" ("Bearer " ++ a)) "x-api-key")
    ∨ (∃ a, hget g "x-api-key" = some a
        ∧ (a ≠ "" && !(jsTruthyStr (hget g "authorization"))) = false
        ∧ authHeaderStep g = g) := by
  rcases hx : hget g "x-api-key" with _ | a
  · exact Or.inl ⟨rfl, authHeaderStep_of_none g hx⟩
  · rcases hb : (a ≠ "" && !(jsTruthyStr (hget g "authorization"))) with _ | _
    · exact Or.inr (Or.inr ⟨a, rfl, hb, authHeaderStep_of_guard_off g a hx hb⟩)
    · refine Or.inr (Or.inl ⟨a, rfl, hb, ?_⟩)
      unfold authHeaderStep
      split
      · rename_i a' heq
        rw [hx] at heq
        injection heq with heq
        subst heq
        rw [if_pos hb]
      · rename_i heq
        rw [hx] at heq
        cases heq

theorem authHeaderStep_stable_hdel (g : HMap) :
    authHeaderStep (hdel (authHeaderStep g) "content-length")
      = hdel (authHeaderStep g) "content-length" := by
  have hx : ∀ q : String, q ≠ "content-length" →
      hget (hdel (authHeaderStep g) "content-length") q = hget (authHeaderStep g) q :=
    fun q hq => by rw [hget_hdel, if_neg hq]
  rcases authHeaderStep_trichotomy g with ⟨hnone, hres⟩ | ⟨a, ha, hg, hres⟩ |
    ⟨a, ha, hg, hres⟩
  · apply authHeaderStep_of_none
    rw [hx _ (by decide), hres, hnone]
  · apply authHeaderStep_of_none
    rw [hx _ (by decide), hres, hget_hdel, if_pos rfl]
  · apply authHeaderStep_of_guard_off _ a
    · rw [hx _ (by decide), hres, ha]
    · rw [show hget (hdel (authHeaderStep g) "content-length") "authorization"
          = hget g "authorization" from by rw [hx _ (by decide), hres]]
      exact hg

theorem normalizeHeadersPipe_table_present (h : HMap) (rule : ModelRule) :
    ∀ e ∈ CLAUDE_CODE_HEADERS, hhas (normalizeHeadersPipe h rule) e.1 = true := by
  intro e he
  have hside := (by decide :
    ∀ e ∈ CLAUDE_CODE_HEADERS, e.1 ≠ "content-length" ∧ e.1 ≠ "authorization" ∧
      e.1 ≠ "x-api-key") e he
  unfold hhas
  unfold normalizeHeadersPipe applyClaudeCodeHeaders
  rw [hget_hdel, if_neg hside.1,
    hget_authHeaderStep_other _ _ hside.2.1 hside.2.2]
  have hmem : (e.1, e.2) ∈ CLAUDE_CODE_HEADERS := he
  have hres := hhas_applyHeaderTable_mem CLAUDE_CODE_HEADERS
    (!strStartsWith ((hget h "user-agent").getD "") "claude-cli/")
    (stripBrowserHeaders (hset h "anthropic-beta"
      (mergeBetaFlags (hget h "anthropic-beta") rule.requiredBetaFlags)))
    e.1 e.2 hmem
  unfold hhas at hres
  exact hres

theorem normalizeHeadersPipe_idem (h : HMap) (rule : ModelRule)
    (hR : ∀ f ∈ rule.requiredBetaFlags, 0 < f.length ∧ trimStr f = f ∧ ',' ∉ f.data) :
    normalizeHeadersPipe (normalizeHeadersPipe h rule) rule
      = normalizeHeadersPipe h rule := by
  set h1 := normalizeHeadersPipe h rule with hh1
  have hua : strStartsWith ((hget h1 "user-agent").getD "") "claude-cli/" = true := by
    rw [hh1]
    exact ua_cli_after_pipe h rule
  have hbeta : hget h1 "anthropic-beta"
      = some (mergeBetaFlags (hget h "anthropic-beta") rule.requiredBetaFlags) := by
    rw [hh1]
    exact hget_normalizeHeadersPipe_beta h rule
  have hbset : hset h1 "anthropic-beta"
      (mergeBetaFlags (hget h1 "anthropic-beta") rule.requiredBetaFlags) = h1 := by
    rw [hbeta, mergeBetaFlags_idem _ _ hR]
    exact hset_unchanged hbeta
  have hfp : ∀ q ∈ BROWSER_FINGERPRINT_HEADERS, hget h1 q = none := by
    intro q hq
    have hside := (by decide :
      ∀ q ∈ BROWSER_FINGERPRINT_HEADERS, (∀ e ∈ CLAUDE_CODE_HEADERS, e.1 ≠ q) ∧
        q ≠ "content-length" ∧ q ≠ "authorization" ∧ q ≠ "x-api-key") q hq
    rw [hh1]
    exact hget_normalizeHeadersPipe_fingerprint h rule q hq hside.1 hside.2.1
      hside.2.2.1 hside.2.2.2
  have hstrip : BROWSER_FINGERPRINT_HEADERS.foldl hdel h1 = h1 :=
    foldl_hdel_absent _ _ hfp
  have hpresent : ∀ e ∈ CLAUDE_CODE_HEADERS, hhas h1 e.1 = true := by
    rw [hh1]
    exact normalizeHeadersPipe_table_present h rule
  have hcritv : ∀ e ∈ CLAUDE_CODE_HEADERS,
      PROTOCOL_CRITICAL_HEADERS.contains e.1 = true → hget h1 e.1 = some e.2 := by
    intro e he hc
    have hside := (by decide :
      ∀ e ∈ CLAUDE_CODE_HEADERS, e.1 ≠ "content-length" ∧ e.1 ≠ "authorization" ∧
        e.1 ≠ "x-api-key") e he
    rw [hh1]
    exact hget_normalizeHeadersPipe_critical h rule e.1 e.2 he hc hside.1
      hside.2.1 hside.2.2
  have htbl : applyHeaderTable CLAUDE_CODE_HEADERS false h1 = h1 :=
    applyHeaderTable_stable _ _ hpresent hcritv
  have hcl : hget h1 "content-length" = none := by
    rw [hh1]
    exact normalizeHeadersPipe_cl_none h rule
  have hform : h1 = hdel (authHeaderStep (applyHeaderTable CLAUDE_CODE_HEADERS
      (!strStartsWith ((hget h "user-agent").getD "") "claude-cli/")
      (List.foldl hdel (hset h "anthropic-beta"
        (mergeBetaFlags (hget h "anthropic-beta") rule.requiredBetaFlags))
        BROWSER_FINGERPRINT_HEADERS))) "content-length" := by
    rw [hh1]
    rfl
  have hauth : authHeaderStep h1 = h1 := by
    rw [hform]
    exact authHeaderStep_stable_hdel _
  show normalizeHeadersPipe h1 rule = h1
  rw [show normalizeHeadersPipe h1 rule
      = hdel (authHeaderStep (applyHeaderTable CLAUDE_CODE_HEADERS
        (!strStartsWith ((hget h1 "user-agent").getD "") "claude-cli/")
        (List.foldl hdel (hset h1 "anthropic-beta"
          (mergeBetaFlags (hget h1 "anthropic-beta") rule.requiredBetaFlags))
          BROWSER_FINGERPRINT_HEADERS))) "content-length" from rfl]
  rw [hua, Bool.not_true, hbset, hstrip, htbl, hauth]
  exact hdel_unchanged hcl

/-! ## Claim C7 — idempotence support: system-array rewrite stability -/

theorem bool_ne_true {b : Bool} (h : b = false) : ¬(b = true) := by
  rw [h]
  decide

theorem ensureCacheControl_eq_keep (fs : List (String × Json)) (m : List (String × Json))
    (h : lookupField fs "cache_control" = some (.obj m)) :
    ensureCacheControl (.obj fs) = .obj fs := by
  simp only [ensureCacheControl, h]

theorem ensureCacheControl_eq_set (fs : List (String × Json))
    (hnot : ∀ m, lookupField fs "cache_control" ≠ some (.obj m)) :
    ensureCacheControl (.obj fs) = .obj (setField fs "cache_control" ephemeralCC) := by
  rcases hcc : lookupField fs "cache_control" with _ | v
  · simp only [ensureCacheControl, hcc]
  · cases v with
    | obj m => exact absurd hcc (hnot m)
    | null => simp only [ensureCacheControl, hcc]
    | bool b => simp only [ensureCacheControl, hcc]
    | num n => simp only [ensureCacheControl, hcc]
    | str s => simp only [ensureCacheControl, hcc]
    | arr xs => simp only [ensureCacheControl, hcc]

theorem ensureCacheControl_idem (j : Json) :
    ensureCacheControl (ensureCacheControl j) = ensureCacheControl j := by
  cases j with
  | obj fs =>
    by_cases hex : ∃ m, lookupField fs "cache_control" = some (.obj m)
    · obtain ⟨m, hm⟩ := hex
      rw [ensureCacheControl_eq_keep fs m hm, ensureCacheControl_eq_keep fs m hm]
    · push_neg at hex
      rw [ensureCacheControl_eq_set fs hex]
      exact ensureCacheControl_eq_keep _ [("type", .str "ephemeral")]
        (by rw [lookupField_setField, if_pos rfl]; rfl)
  | null => rfl
  | bool b => rfl
  | num n => rfl
  | str s => rfl
  | arr xs => rfl

theorem isRecord_ensure (j : Json) (h : isRecord j = true) :
    isRecord (ensureCacheControl j) = true := by
  cases j with
  | obj fs =>
    by_cases hex : ∃ m, lookupField fs "cache_control" = some (.obj m)
    · obtain ⟨m, hm⟩ := hex
      rw [ensureCacheControl_eq_keep fs m hm]
      rfl
    · push_neg at hex
      rw [ensureCacheControl_eq_set fs hex]
      rfl
  | null => simp [isRecord] at h
  | bool b => simp [isRecord] at h
  | num n => simp [isRecord] at h
  | str s => simp [isRecord] at h
  | arr xs => simp [isRecord] at h

theorem hasClaudeCodeIdentity_ensure (j : Json) :
    hasClaudeCodeIdentity (ensureCacheControl j) = hasClaudeCodeIdentity j := by
  cases j with
  | obj fs =>
    by_cases hex : ∃ m, lookupField fs "cache_control" = some (.obj m)
    · obtain ⟨m, hm⟩ := hex
      rw [ensureCacheControl_eq_keep fs m hm]
    · push_neg at hex
      rw [ensureCacheControl_eq_set fs hex]
      unfold hasClaudeCodeIdentity
      dsimp only
      rw [lookupField_setField, if_neg (by decide)]
  | null => rfl
  | bool b => rfl
  | num n => rfl
  | str s => rfl
  | arr xs => rfl

theorem firstBlockHasSentinel_cons (x : Json) (l l' : List Json) :
    firstBlockHasSentinel (x :: l) = firstBlockHasSentinel (x :: l') := by
  cases x <;> rfl

theorem firstBlockHasSentinel_ensure (x : Json) (l : List Json) :
    firstBlockHasSentinel (ensureCacheControl x :: l)
      = firstBlockHasSentinel (x :: l) := by
  cases x with
  | obj fs =>
    by_cases hex : ∃ m, lookupField fs "cache_control" = some (.obj m)
    · obtain ⟨m, hm⟩ := hex
      rw [ensureCacheControl_eq_keep fs m hm]
    · push_neg at hex
      rw [ensureCacheControl_eq_set fs hex]
      unfold firstBlockHasSentinel
      dsimp only
      rw [lookupField_setField, if_neg (by decide)]
  | null => rfl
  | bool b => rfl
  | num n => rfl
  | str s => rfl
  | arr xs => rfl

theorem hasInstructionsTail_cons (x y : Json) (l : List Json) :
    hasInstructionsTail (x :: l) = hasInstructionsTail (y :: l) := rfl

theorem hasInstructionsTail_concat_instr (sit : String) (hsit : 5000 < sit.length)
    (a : Json) (rest : List Json) :
    hasInstructionsTail (a :: (rest ++ [instructionsBlock sit])) = true := by
  unfold hasInstructionsTail
  rw [List.any_eq_true]
  refine ⟨instructionsBlock sit, by simp, ?_⟩
  simp [instructionsBlock, lookupField]
  exact hsit

theorem hasInstructionsTail_prefix_tail (sit : String) (hsit : 5000 < sit.length)
    (a : Json) (rest : List Json) :
    hasInstructionsTail (a :: instructionsBlock sit :: rest) = true := by
  unfold hasInstructionsTail
  rw [List.any_eq_true]
  refine ⟨instructionsBlock sit, by simp, ?_⟩
  simp [instructionsBlock, lookupField]
  exact hsit

theorem canonicalPrefixBlocks_eq (sit : String) :
    canonicalPrefixBlocks sit = [identityBlock, instructionsBlock sit] := by
  unfold canonicalPrefixBlocks
  rw [if_neg (by decide)]

theorem cliSystemRewrite_identity_branch (sit : String) (a : Json) (rest : List Json)
    (hsent : firstBlockHasSentinel (a :: rest) = false)
    (hid : hasClaudeCodeIdentity a = true) :
    cliSystemRewrite sit (a :: rest)
      = if hasInstructionsTail (a :: rest) = true then ensureCacheControl a :: rest
        else (ensureCacheControl a :: rest) ++ [instructionsBlock sit] := by
  unfold cliSystemRewrite
  rw [if_neg (by simp), if_neg (bool_ne_true hsent),
    show (a :: rest).headD Json.null = a from rfl, if_pos hid]
  dsimp only
  rw [if_neg (by decide)]

theorem cliSystemRewrite_prefix_fix (sit : String) (hsit : 5000 < sit.length)
    (A : List Json) :
    cliSystemRewrite sit (identityBlock :: instructionsBlock sit :: A)
      = identityBlock :: instructionsBlock sit :: A := by
  have hsent : firstBlockHasSentinel (identityBlock :: instructionsBlock sit :: A)
      = false := by
    rw [firstBlockHasSentinel_cons identityBlock _ []]
    decide
  have hid : hasClaudeCodeIdentity identityBlock = true := by decide
  have hinstr : hasInstructionsTail (identityBlock :: instructionsBlock sit :: A)
      = true := hasInstructionsTail_prefix_tail sit hsit identityBlock A
  rw [cliSystemRewrite_identity_branch sit identityBlock (instructionsBlock sit :: A)
    hsent hid, if_pos hinstr,
    show ensureCacheControl identityBlock = identityBlock from rfl]

theorem genericSystemRewrite_no_identity (sit : String) (A : List Json)
    (hno : A.any hasClaudeCodeIdentity = false) :
    genericSystemRewrite sit A = identityBlock :: instructionsBlock sit :: A := by
  unfold genericSystemRewrite
  rw [if_neg (bool_ne_true hno)]
  rcases A with _ | ⟨a, rest⟩
  · rw [if_pos (show ([] : List Json).isEmpty = true from rfl), canonicalPrefixBlocks_eq]
  · rw [if_neg (by simp), canonicalPrefixBlocks_eq]
    rfl

theorem cliSystemRewrite_idem (sit : String) (hsit : 5000 < sit.length)
    (A : List Json) :
    cliSystemRewrite sit (cliSystemRewrite sit A) = cliSystemRewrite sit A := by
  rcases A with _ | ⟨a, rest⟩
  · rw [show cliSystemRewrite sit [] = canonicalPrefixBlocks sit from by
        unfold cliSystemRewrite
        rw [if_pos (show ([] : List Json).isEmpty = true from rfl)],
      canonicalPrefixBlocks_eq]
    exact cliSystemRewrite_prefix_fix sit hsit []
  · by_cases hsent : firstBlockHasSentinel (a :: rest) = true
    · rcases rest with _ | ⟨b, rest'⟩
      · have hout1 : cliSystemRewrite sit [a] = [a] := by
          unfold cliSystemRewrite
          rw [if_neg (by simp), if_pos hsent]
        rw [hout1, hout1]
      · by_cases hrec : isRecord b = true
        · have hout2 : cliSystemRewrite sit (a :: b :: rest')
              = a :: ensureCacheControl b :: rest' := by
            unfold cliSystemRewrite
            rw [if_neg (by simp), if_pos hsent]
            dsimp only
            rw [if_pos hrec]
          have hsent2 : firstBlockHasSentinel (a :: ensureCacheControl b :: rest')
              = true := by
            rw [firstBlockHasSentinel_cons a _ (b :: rest')]
            exact hsent
          have hout3 : cliSystemRewrite sit (a :: ensureCacheControl b :: rest')
              = a :: ensureCacheControl (ensureCacheControl b) :: rest' := by
            unfold cliSystemRewrite
            rw [if_neg (by simp), if_pos hsent2]
            dsimp only
            rw [if_pos (isRecord_ensure b hrec)]
          rw [hout2, hout3, ensureCacheControl_idem]
        · have hout2 : cliSystemRewrite sit (a :: b :: rest') = a :: b :: rest' := by
            unfold cliSystemRewrite
            rw [if_neg (by simp), if_pos hsent]
            dsimp only
            rw [if_neg hrec]
          rw [hout2, hout2]
    · have hsentf : firstBlockHasSentinel (a :: rest) = false :=
        Bool.eq_false_iff.mpr hsent
      by_cases hid : hasClaudeCodeIdentity a = true
      · by_cases hti : hasInstructionsTail (a :: rest) = true
        · have hout : cliSystemRewrite sit (a :: rest) = ensureCacheControl a :: rest := by
            rw [cliSystemRewrite_identity_branch sit a rest hsentf hid, if_pos hti]
          have hsent2 : firstBlockHasSentinel (ensureCacheControl a :: rest) = false := by
            rw [firstBlockHasSentinel_ensure a rest]
            exact hsentf
          have hid2 : hasClaudeCodeIdentity (ensureCacheControl a) = true := by
            rw [hasClaudeCodeIdentity_ensure a]
            exact hid
          have hti2 : hasInstructionsTail (ensureCacheControl a :: rest) = true := by
            rw [hasInstructionsTail_cons (ensureCacheControl a) a rest]
            exact hti
          have hout2 : cliSystemRewrite sit (ensureCacheControl a :: rest)
              = ensureCacheControl (ensureCacheControl a) :: rest := by
            rw [cliSystemRewrite_identity_branch sit (ensureCacheControl a) rest
              hsent2 hid2, if_pos hti2]
          rw [hout, hout2, ensureCacheControl_idem]
        · have hout : cliSystemRewrite sit (a :: rest)
              = ensureCacheControl a :: (rest ++ [instructionsBlock sit]) := by
            rw [cliSystemRewrite_identity_branch sit a rest hsentf hid, if_neg hti,
              List.cons_append]
          have hsent2 : firstBlockHasSentinel
              (ensureCacheControl a :: (rest ++ [instructionsBlock sit])) = false := by
            rw [firstBlockHasSentinel_ensure a _, firstBlockHasSentinel_cons a _ rest]
            exact hsentf
          have hid2 : hasClaudeCodeIdentity (ensureCacheControl a) = true := by
            rw [hasClaudeCodeIdentity_ensure a]
            exact hid
          have hti2 : hasInstructionsTail
              (ensureCacheControl a :: (rest ++ [instructionsBlock sit])) = true :=
            hasInstructionsTail_concat_instr sit hsit (ensureCacheControl a) rest
          have hout2 : cliSystemRewrite sit
              (ensureCacheControl a :: (rest ++ [instructionsBlock sit]))
              = ensureCacheControl (ensureCacheControl a)
                  :: (rest ++ [instructionsBlock sit]) := by
            rw [cliSystemRewrite_identity_branch sit (ensureCacheControl a)
              (rest ++ [instructionsBlock sit]) hsent2 hid2, if_pos hti2]
          rw [hout, hout2, ensureCacheControl_idem]
      · have hout : cliSystemRewrite sit (a :: rest)
            = identityBlock :: instructionsBlock sit :: (a :: rest) := by
          unfold cliSystemRewrite
          rw [if_neg (by simp), if_neg hsent,
            show (a :: rest).headD Json.null = a from rfl, if_neg hid,
            canonicalPrefixBlocks_eq]
          rfl
        rw [hout]
        exact cliSystemRewrite_prefix_fix sit hsit (a :: rest)

/-! ## Claim C7 — idempotence support: body pipeline stability -/

theorem lookupField_normalizeBodyPreMax_thinking (sit : String) (ccTools : List Json)
    (u1 u2 : String) (rule : ModelRule) (isCli : Bool) (fs : List (String × Json)) :
    lookupField (normalizeBodyPreMax sit ccTools u1 u2 rule isCli fs) "thinking"
      = rule.thinking := by
  simp only [normalizeBodyPreMax]
  have hstep12 : ∀ fs' : List (String × Json),
      lookupField
        (if rule.removeTemperature then
          delField (match rule.thinking with
            | some t => setField fs' "thinking" t
            | none => delField fs' "thinking") "temperature"
         else (match rule.thinking with
            | some t => setField fs' "thinking" t
            | none => delField fs' "thinking")) "thinking" = rule.thinking := by
    intro fs'
    rcases rule.thinking with _ | t <;> split <;>
      simp [lookupField_setField, lookupField_delField]
  split
  · rw [lookupField_identityToolsMetadata_frame _ _ _ _ _ (by decide) (by decide),
      lookupField_setField, if_neg (by decide), hstep12]
  · split
    · rw [lookupField_identityToolsMetadata_frame _ _ _ _ _ (by decide) (by decide),
        lookupField_setField, if_neg (by decide), hstep12]
    · rw [lookupField_haikuBodyDefaults_frame _ _ (by decide) (by decide) (by decide),
        hstep12]

theorem lookupField_normalizeBodyPreMax_temperature (sit : String) (ccTools : List Json)
    (u1 u2 : String) (rule : ModelRule) (isCli : Bool) (fs : List (String × Json))
    (hrt : rule.removeTemperature = true) :
    lookupField (normalizeBodyPreMax sit ccTools u1 u2 rule isCli fs) "temperature"
      = none := by
  simp only [normalizeBodyPreMax]
  split
  · rw [lookupField_identityToolsMetadata_frame _ _ _ _ _ (by decide) (by decide),
      lookupField_setField,
      if_neg (show ¬(("temperature" : String) = "system") from by decide),
      lookupField_delField, if_pos rfl]
  · split
    · rw [lookupField_identityToolsMetadata_frame _ _ _ _ _ (by decide) (by decide),
        lookupField_setField,
        if_neg (show ¬(("temperature" : String) = "system") from by decide),
        lookupField_delField, if_pos rfl]
    · rw [lookupField_haikuBodyDefaults_frame _ _ (by decide) (by decide) (by decide),
        lookupField_delField, if_pos rfl]

theorem lookupField_normalizeBodyPreMax_system_generic (sit : String)
    (ccTools : List Json) (u1 u2 : String) (rule : ModelRule)
    (fs : List (String × Json)) (hreq : rule.requireClaudeCodeIdentity = true) :
    lookupField (normalizeBodyPreMax sit ccTools u1 u2 rule false fs) "system"
      = some (.arr (genericSystemRewrite sit
          (normalizeSystemToArray (lookupField fs "system")))) := by
  simp only [normalizeBodyPreMax, hreq, Bool.and_false, Bool.and_true,
    Bool.not_false, Bool.false_eq_true, if_false, if_true]
  have hstep12 : lookupField
      (if rule.removeTemperature = true then
        delField (match rule.thinking with
          | some t => setField fs "thinking" t
          | none => delField fs "thinking") "temperature"
       else (match rule.thinking with
          | some t => setField fs "thinking" t
          | none => delField fs "thinking"))
      "system" = lookupField fs "system" := by
    rcases rule.thinking with _ | t <;> split <;>
      simp [lookupField_setField, lookupField_delField]
  rw [lookupField_identityToolsMetadata_frame _ _ _ _ _ (by decide) (by decide),
    lookupField_setField, if_pos rfl, hstep12]

theorem lookupField_normalizeBodyPreMax_system_cli (sit : String)
    (ccTools : List Json) (u1 u2 : String) (rule : ModelRule)
    (fs : List (String × Json)) (hreq : rule.requireClaudeCodeIdentity = true) :
    lookupField (normalizeBodyPreMax sit ccTools u1 u2 rule true fs) "system"
      = some (.arr (cliSystemRewrite sit
          (normalizeSystemToArray (lookupField fs "system")))) := by
  simp only [normalizeBodyPreMax, hreq, Bool.and_true, eq_self_iff_true, if_true]
  have hstep12 : lookupField
      (if rule.removeTemperature = true then
        delField (match rule.thinking with
          | some t => setField fs "thinking" t
          | none => delField fs "thinking") "temperature"
       else (match rule.thinking with
          | some t => setField fs "thinking" t
          | none => delField fs "thinking"))
      "system" = lookupField fs "system" := by
    rcases rule.thinking with _ | t <;> split <;>
      simp [lookupField_setField, lookupField_delField]
  rw [lookupField_identityToolsMetadata_frame _ _ _ _ _ (by decide) (by decide),
    lookupField_setField, if_pos rfl, hstep12]

theorem lookupField_normalizeBodyFields_eq (sit : String) (ccTools : List Json)
    (u1 u2 : String) (rule : ModelRule) (isCli : Bool) (fs : List (String × Json))
    (q : String) (hq : q ≠ "max_tokens") :
    lookupField (normalizeBodyFields sit ccTools u1 u2 rule isCli fs) q
      = lookupField (normalizeBodyPreMax sit ccTools u1 u2 rule isCli fs) q := by
  simp only [normalizeBodyFields]
  split
  · rfl
  · rw [lookupField_setField, if_neg hq]

theorem normalizeBodyFields_maxTokens_truthy (sit : String) (ccTools : List Json)
    (u1 u2 : String) (rule : ModelRule) (isCli : Bool) (fs : List (String × Json)) :
    jsTruthyOpt (lookupField (normalizeBodyFields sit ccTools u1 u2 rule isCli fs)
      "max_tokens") = true := by
  simp only [normalizeBodyFields]
  split
  · rename_i htr
    exact htr
  · rw [lookupField_setField, if_pos rfl]
    rfl

theorem step12_fix (rule : ModelRule) (g : List (String × Json))
    (hth : lookupField g "thinking" = rule.thinking)
    (hte : rule.removeTemperature = true → lookupField g "temperature" = none) :
    (if rule.removeTemperature then
      delField (match rule.thinking with
        | some t => setField g "thinking" t
        | none => delField g "thinking") "temperature"
     else (match rule.thinking with
        | some t => setField g "thinking" t
        | none => delField g "thinking")) = g := by
  have hth1 : (match rule.thinking with
      | some t => setField g "thinking" t
      | none => delField g "thinking") = g := by
    rcases hrt : rule.thinking with _ | t
    · exact delField_unchanged (by rw [hth, hrt])
    · exact setField_unchanged (by rw [hth, hrt])
  rw [hth1]
  split
  · rename_i hrt
    exact delField_unchanged (hte hrt)
  · rfl

theorem identityToolsMetadata_tools_shape (ccTools : List Json)
    (u1 u2 : String) (fs : List (String × Json)) :
    ∃ T : List Json, lookupField (identityToolsMetadata ccTools u1 u2 fs) "tools"
        = some (.arr T) ∧ (T.isEmpty = true → T = ccTools) := by
  rcases hT : lookupField fs "tools" with _ | v
  · refine ⟨ccTools, ?_, fun _ => rfl⟩
    simp only [identityToolsMetadata, hT]
    rw [lookupField_setField, if_neg (by decide), lookupField_setField, if_pos rfl]
  · cases v with
    | arr ts =>
      rcases hTe : ts.isEmpty with _ | _
      · refine ⟨ts, ?_, fun he => absurd he (bool_ne_true hTe)⟩
        simp only [identityToolsMetadata, hT]
        rw [if_neg (bool_ne_true hTe), lookupField_setField, if_neg (by decide)]
        exact hT
      · refine ⟨ccTools, ?_, fun _ => rfl⟩
        simp only [identityToolsMetadata, hT]
        rw [if_pos hTe, lookupField_setField, if_neg (by decide),
          lookupField_setField, if_pos rfl]
    | null =>
      refine ⟨ccTools, ?_, fun _ => rfl⟩
      simp only [identityToolsMetadata, hT]
      rw [lookupField_setField, if_neg (by decide), lookupField_setField, if_pos rfl]
    | bool b =>
      refine ⟨ccTools, ?_, fun _ => rfl⟩
      simp only [identityToolsMetadata, hT]
      rw [lookupField_setField, if_neg (by decide), lookupField_setField, if_pos rfl]
    | num n =>
      refine ⟨ccTools, ?_, fun _ => rfl⟩
      simp only [identityToolsMetadata, hT]
      rw [lookupField_setField, if_neg (by decide), lookupField_setField, if_pos rfl]
    | str s =>
      refine ⟨ccTools, ?_, fun _ => rfl⟩
      simp only [identityToolsMetadata, hT]
      rw [lookupField_setField, if_neg (by decide), lookupField_setField, if_pos rfl]
    | obj o =>
      refine ⟨ccTools, ?_, fun _ => rfl⟩
      simp only [identityToolsMetadata, hT]
      rw [lookupField_setField, if_neg (by decide), lookupField_setField, if_pos rfl]

theorem identityToolsMetadata_metadata_valid (ccTools : List Json)
    (u1 u2 : String) (fs : List (String × Json))
    (hb : matchesUserIdPattern (buildClaudeCodeUserId u1 u2) = true) :
    ∃ md : List (String × Json),
      lookupField (identityToolsMetadata ccTools u1 u2 fs) "metadata"
        = some (.obj md) ∧ hasValidUserId md = true := by
  simp only [identityToolsMetadata]
  refine ⟨_, by rw [lookupField_setField, if_pos rfl], ?_⟩
  split
  · rename_i hv
    exact hv
  · unfold hasValidUserId
    rw [lookupField_setField, if_pos rfl]
    exact hb

theorem identityToolsMetadata_fix (ccTools : List Json) (u1 u2 : String)
    (fs : List (String × Json)) (T : List Json) (md : List (String × Json))
    (hT : lookupField fs "tools" = some (.arr T))
    (hTc : T.isEmpty = true → T = ccTools)
    (hmd : lookupField fs "metadata" = some (.obj md))
    (hv : hasValidUserId md = true) :
    identityToolsMetadata ccTools u1 u2 fs = fs := by
  simp only [identityToolsMetadata, hT]
  have hfs1 : (if T.isEmpty = true then setField fs "tools" (.arr ccTools) else fs)
      = fs := by
    split
    · rename_i hTe
      rw [← hTc hTe]
      exact setField_unchanged hT
    · rfl
  simp only [hfs1, hmd]
  rw [if_pos hv]
  exact setField_unchanged hmd

theorem haikuBodyDefaults_system_shape (fs : List (String × Json)) :
    (∃ xs, lookupField (haikuBodyDefaults fs) "system" = some (.arr xs)
        ∧ xs.isEmpty = false)
    ∨ (∃ s, lookupField (haikuBodyDefaults fs) "system" = some (.str s)
        ∧ 0 < (trimStr s).length) := by
  have hmeta : ∀ fs2 : List (String × Json),
      lookupField (if jsTruthyOpt (lookupField fs2 "metadata") = true then fs2
        else setField fs2 "metadata" (.obj [("user_id", .str "normalized-request")]))
        "system" = lookupField fs2 "system" := by
    intro fs2
    split <;> simp [lookupField_setField]
  have htools : ∀ fs1 : List (String × Json),
      lookupField (match lookupField fs1 "tools" with
        | some (.arr _) => fs1
        | _ => setField fs1 "tools" (.arr [])) "system" = lookupField fs1 "system" := by
    intro fs1
    split <;> simp [lookupField_setField]
  rcases hls : lookupField fs "system" with _ | v
  · refine Or.inl ⟨[.obj [("type", .str "text"), ("text", .str IDENTITY_TEXT)]], ?_, rfl⟩
    unfold haikuBodyDefaults
    rw [hmeta, htools]
    simp only [hls]
    rw [if_neg (by decide), lookupField_setField, if_pos rfl]
  · cases v with
    | arr xs =>
      rcases hxe : xs.isEmpty with _ | _
      · refine Or.inl ⟨xs, ?_, hxe⟩
        unfold haikuBodyDefaults
        rw [hmeta, htools]
        simp only [hls]
        rw [if_pos (show (!xs.isEmpty) = true from by rw [hxe]; rfl)]
        exact hls
      · refine Or.inl ⟨[.obj [("type", .str "text"), ("text", .str IDENTITY_TEXT)]],
          ?_, rfl⟩
        unfold haikuBodyDefaults
        rw [hmeta, htools]
        simp only [hls]
        rw [if_neg (show ¬((!xs.isEmpty) = true) from by rw [hxe]; decide),
          lookupField_setField, if_pos rfl]
    | str s =>
      rcases hst : decide (0 < (trimStr s).length) with _ | _
      · refine Or.inl ⟨[.obj [("type", .str "text"), ("text", .str IDENTITY_TEXT)]],
          ?_, rfl⟩
        unfold haikuBodyDefaults
        rw [hmeta, htools]
        simp only [hls]
        rw [if_neg (show ¬(decide ((trimStr s).length > 0) = true) from
            by rw [show decide ((trimStr s).length > 0) = false from hst]; decide),
          lookupField_setField, if_pos rfl]
      · refine Or.inr ⟨s, ?_, of_decide_eq_true hst⟩
        unfold haikuBodyDefaults
        rw [hmeta, htools]
        simp only [hls]
        rw [if_pos (show decide ((trimStr s).length > 0) = true from hst)]
        exact hls
    | null =>
      refine Or.inl ⟨[.obj [("type", .str "text"), ("text", .str IDENTITY_TEXT)]], ?_, rfl⟩
      unfold haikuBodyDefaults
      rw [hmeta, htools]
      simp only [hls]
      rw [if_neg (by decide), lookupField_setField, if_pos rfl]
    | bool b =>
      refine Or.inl ⟨[.obj [("type", .str "text"), ("text", .str IDENTITY_TEXT)]], ?_, rfl⟩
      unfold haikuBodyDefaults
      rw [hmeta, htools]
      simp only [hls]
      rw [if_neg (by decide), lookupField_setField, if_pos rfl]
    | num n =>
      refine Or.inl ⟨[.obj [("type", .str "text"), ("text", .str IDENTITY_TEXT)]], ?_, rfl⟩
      unfold haikuBodyDefaults
      rw [hmeta, htools]
      simp only [hls]
      rw [if_neg (by decide), lookupField_setField, if_pos rfl]
    | obj o =>
      refine Or.inl ⟨[.obj [("type", .str "text"), ("text", .str IDENTITY_TEXT)]], ?_, rfl⟩
      unfold haikuBodyDefaults
      rw [hmeta, htools]
      simp only [hls]
      rw [if_neg (by decide), lookupField_setField, if_pos rfl]

theorem haikuBodyDefaults_tools_shape (fs : List (String × Json)) :
    ∃ T, lookupField (haikuBodyDefaults fs) "tools" = some (.arr T) := by
  have hmeta : ∀ fs2 : List (String × Json),
      lookupField (if jsTruthyOpt (lookupField fs2 "metadata") = true then fs2
        else setField fs2 "metadata" (.obj [("user_id", .str "normalized-request")]))
        "tools" = lookupField fs2 "tools" := by
    intro fs2
    split <;> simp [lookupField_setField]
  have haux : ∀ fs1 : List (String × Json), ∃ T,
      lookupField (match lookupField fs1 "tools" with
        | some (.arr _) => fs1
        | _ => setField fs1 "tools" (.arr [])) "tools" = some (.arr T) := by
    intro fs1
    rcases hT : lookupField fs1 "tools" with _ | v
    · exact ⟨[], by simp only [hT]; rw [lookupField_setField, if_pos rfl]⟩
    · cases v with
      | arr ts => exact ⟨ts, by simp only [hT]⟩
      | null => exact ⟨[], by simp only [hT]; rw [lookupField_setField, if_pos rfl]⟩
      | bool b => exact ⟨[], by simp only [hT]; rw [lookupField_setField, if_pos rfl]⟩
      | num n => exact ⟨[], by simp only [hT]; rw [lookupField_setField, if_pos rfl]⟩
      | str s => exact ⟨[], by simp only [hT]; rw [lookupField_setField, if_pos rfl]⟩
      | obj o => exact ⟨[], by simp only [hT]; rw [lookupField_setField, if_pos rfl]⟩
  unfold haikuBodyDefaults
  obtain ⟨T, hT⟩ := haux _
  exact ⟨T, by rw [hmeta]; exact hT⟩

theorem haikuBodyDefaults_metadata_truthy (fs : List (String × Json)) :
    jsTruthyOpt (lookupField (haikuBodyDefaults fs) "metadata") = true := by
  have haux : ∀ fs2 : List (String × Json),
      jsTruthyOpt (lookupField
        (if jsTruthyOpt (lookupField fs2 "metadata") = true then fs2
         else setField fs2 "metadata" (.obj [("user_id", .str "normalized-request")]))
        "metadata") = true := by
    intro fs2
    split
    · rename_i htr
      exact htr
    · rw [lookupField_setField, if_pos rfl]
      rfl
  unfold haikuBodyDefaults
  exact haux _

theorem haikuBodyDefaults_fix (fs : List (String × Json))
    (hsys : (∃ xs, lookupField fs "system" = some (.arr xs) ∧ xs.isEmpty = false)
          ∨ (∃ s, lookupField fs "system" = some (.str s) ∧ 0 < (trimStr s).length))
    (htools : ∃ T, lookupField fs "tools" = some (.arr T))
    (hmd : jsTruthyOpt (lookupField fs "metadata") = true) :
    haikuBodyDefaults fs = fs := by
  obtain ⟨T, hT⟩ := htools
  unfold haikuBodyDefaults
  rcases hsys with ⟨xs, hx, hxe⟩ | ⟨s, hs, hst⟩
  · simp only [hx]
    rw [if_pos (show (!xs.isEmpty) = true from by rw [hxe]; rfl)]
    simp only [hT]
    rw [if_pos hmd]
  · simp only [hs]
    rw [if_pos (show decide ((trimStr s).length > 0) = true from decide_eq_true hst)]
    simp only [hT]
    rw [if_pos hmd]

theorem isClaudeCodeCliRequest_of_ua (h : HMap) (fs : List (String × Json))
    (hua : strStartsWith ((hget h "user-agent").getD "") "claude-cli/" = true) :
    isClaudeCodeCliRequest h fs = true := by
  simp only [isClaudeCodeCliRequest]
  split
  · rfl
  · split
    · rfl
    · exact hua

theorem normalizeBodyPreMax_identity_eq (sit : String) (ccTools : List Json)
    (u1 u2 : String) (rule : ModelRule) (isCli : Bool) (fs : List (String × Json))
    (hreq : rule.requireClaudeCodeIdentity = true) :
    ∃ fsA, normalizeBodyPreMax sit ccTools u1 u2 rule isCli fs
      = identityToolsMetadata ccTools u1 u2 fsA := by
  rcases isCli with _ | _
  · exact ⟨_, by
      simp only [normalizeBodyPreMax, hreq, Bool.and_false, Bool.and_true,
        Bool.not_false, Bool.false_eq_true, if_false, if_true]
      rfl⟩
  · exact ⟨_, by
      simp only [normalizeBodyPreMax, hreq, Bool.and_true, eq_self_iff_true, if_true]
      rfl⟩

theorem normalizeBodyPreMax_haiku_eq (sit : String) (ccTools : List Json)
    (u1 u2 : String) (rule : ModelRule) (isCli : Bool) (fs : List (String × Json))
    (hreq : rule.requireClaudeCodeIdentity = false) :
    ∃ fs2, normalizeBodyPreMax sit ccTools u1 u2 rule isCli fs
      = haikuBodyDefaults fs2 := by
  exact ⟨_, by
    simp only [normalizeBodyPreMax, hreq, Bool.false_and, Bool.false_eq_true, if_false]
    rfl⟩

theorem normalizeBodyPreMax_haiku_fixarg (sit : String) (ccTools : List Json)
    (u1 u2 : String) (rule : ModelRule) (isCli : Bool) (fs : List (String × Json))
    (hreq : rule.requireClaudeCodeIdentity = false)
    (hth : lookupField fs "thinking" = rule.thinking)
    (hte : rule.removeTemperature = true → lookupField fs "temperature" = none) :
    normalizeBodyPreMax sit ccTools u1 u2 rule isCli fs = haikuBodyDefaults fs := by
  simp only [normalizeBodyPreMax, hreq, Bool.false_and, Bool.false_eq_true, if_false]
  rw [step12_fix rule fs hth hte]

theorem normalizeBodyPreMax_cli_fix (sit : String) (ccTools : List Json)
    (u1 u2 : String) (rule : ModelRule) (g : List (String × Json))
    (hreq : rule.requireClaudeCodeIdentity = true)
    (hth : lookupField g "thinking" = rule.thinking)
    (hte : rule.removeTemperature = true → lookupField g "temperature" = none)
    (hsys : ∃ L, lookupField g "system" = some (.arr L) ∧ cliSystemRewrite sit L = L)
    (hT : ∃ T, lookupField g "tools" = some (.arr T) ∧ (T.isEmpty = true → T = ccTools))
    (hmd : ∃ md, lookupField g "metadata" = some (.obj md) ∧ hasValidUserId md = true) :
    normalizeBodyPreMax sit ccTools u1 u2 rule true g = g := by
  obtain ⟨L, hL, hLfix⟩ := hsys
  obtain ⟨T, hTl, hTc⟩ := hT
  obtain ⟨md, hmdl, hmdv⟩ := hmd
  simp only [normalizeBodyPreMax, hreq, Bool.and_true, eq_self_iff_true, if_true]
  rw [step12_fix rule g hth hte, hL,
    show normalizeSystemToArray (some (.arr L)) = L from rfl, hLfix,
    setField_unchanged hL]
  exact identityToolsMetadata_fix ccTools u1 u2 g T md hTl hTc hmdl hmdv

theorem normalizeBodyFields_idem_haiku (sit : String) (ccTools : List Json)
    (u1 u2 : String) (rule : ModelRule) (c1 c2 : Bool) (fs : List (String × Json))
    (hreq : rule.requireClaudeCodeIdentity = false) :
    normalizeBodyFields sit ccTools u1 u2 rule c2
      (normalizeBodyFields sit ccTools u1 u2 rule c1 fs)
      = normalizeBodyFields sit ccTools u1 u2 rule c1 fs := by
  have hth : lookupField (normalizeBodyFields sit ccTools u1 u2 rule c1 fs) "thinking"
      = rule.thinking := by
    rw [lookupField_normalizeBodyFields_eq _ _ _ _ _ _ _ _ (by decide),
      lookupField_normalizeBodyPreMax_thinking]
  have hte : rule.removeTemperature = true →
      lookupField (normalizeBodyFields sit ccTools u1 u2 rule c1 fs) "temperature"
        = none := fun hrt => by
    rw [lookupField_normalizeBodyFields_eq _ _ _ _ _ _ _ _ (by decide),
      lookupField_normalizeBodyPreMax_temperature _ _ _ _ _ _ _ hrt]
  obtain ⟨fsh, hfsh⟩ := normalizeBodyPreMax_haiku_eq sit ccTools u1 u2 rule c1 fs hreq
  have hSe : lookupField (normalizeBodyFields sit ccTools u1 u2 rule c1 fs) "system"
      = lookupField (haikuBodyDefaults fsh) "system" := by
    rw [lookupField_normalizeBodyFields_eq _ _ _ _ _ _ _ _ (by decide), hfsh]
  have hTe2 : lookupField (normalizeBodyFields sit ccTools u1 u2 rule c1 fs) "tools"
      = lookupField (haikuBodyDefaults fsh) "tools" := by
    rw [lookupField_normalizeBodyFields_eq _ _ _ _ _ _ _ _ (by decide), hfsh]
  have hMe : lookupField (normalizeBodyFields sit ccTools u1 u2 rule c1 fs) "metadata"
      = lookupField (haikuBodyDefaults fsh) "metadata" := by
    rw [lookupField_normalizeBodyFields_eq _ _ _ _ _ _ _ _ (by decide), hfsh]
  have hS1 : (∃ xs, lookupField (normalizeBodyFields sit ccTools u1 u2 rule c1 fs)
        "system" = some (.arr xs) ∧ xs.isEmpty = false)
      ∨ (∃ s, lookupField (normalizeBodyFields sit ccTools u1 u2 rule c1 fs)
        "system" = some (.str s) ∧ 0 < (trimStr s).length) := by
    simp only [hSe]
    exact haikuBodyDefaults_system_shape fsh
  have hT1 : ∃ T, lookupField (normalizeBodyFields sit ccTools u1 u2 rule c1 fs)
      "tools" = some (.arr T) := by
    simp only [hTe2]
    exact haikuBodyDefaults_tools_shape fsh
  have hM1 : jsTruthyOpt (lookupField (normalizeBodyFields sit ccTools u1 u2 rule c1 fs)
      "metadata") = true := by
    rw [hMe]
    exact haikuBodyDefaults_metadata_truthy fsh
  have hpre2 : normalizeBodyPreMax sit ccTools u1 u2 rule c2
      (normalizeBodyFields sit ccTools u1 u2 rule c1 fs)
      = normalizeBodyFields sit ccTools u1 u2 rule c1 fs :=
    (normalizeBodyPreMax_haiku_fixarg sit ccTools u1 u2 rule c2 _ hreq hth hte).trans
      (haikuBodyDefaults_fix _ hS1 hT1 hM1)
  have hmax : jsTruthyOpt (lookupField (normalizeBodyFields sit ccTools u1 u2 rule c1 fs)
      "max_tokens") = true := normalizeBodyFields_maxTokens_truthy sit ccTools u1 u2 rule c1 fs
  rw [show normalizeBodyFields sit ccTools u1 u2 rule c2
        (normalizeBodyFields sit ccTools u1 u2 rule c1 fs)
      = (if jsTruthyOpt (lookupField (normalizeBodyPreMax sit ccTools u1 u2 rule c2
            (normalizeBodyFields sit ccTools u1 u2 rule c1 fs)) "max_tokens") = true
         then normalizeBodyPreMax sit ccTools u1 u2 rule c2
            (normalizeBodyFields sit ccTools u1 u2 rule c1 fs)
         else setField (normalizeBodyPreMax sit ccTools u1 u2 rule c2
            (normalizeBodyFields sit ccTools u1 u2 rule c1 fs))
           "max_tokens" (.num 32000)) from rfl,
    hpre2, if_pos hmax]

theorem normalizeBodyFields_idem_identity (sit : String) (ccTools : List Json)
    (u1 u2 : String) (rule : ModelRule) (c1 : Bool) (fs : List (String × Json))
    (hreq : rule.requireClaudeCodeIdentity = true) (hsit : 5000 < sit.length)
    (hb : matchesUserIdPattern (buildClaudeCodeUserId u1 u2) = true)
    (hgen : c1 = false →
      (normalizeSystemToArray (lookupField fs "system")).any hasClaudeCodeIdentity
        = false) :
    normalizeBodyFields sit ccTools u1 u2 rule true
      (normalizeBodyFields sit ccTools u1 u2 rule c1 fs)
      = normalizeBodyFields sit ccTools u1 u2 rule c1 fs := by
  have hth : lookupField (normalizeBodyFields sit ccTools u1 u2 rule c1 fs) "thinking"
      = rule.thinking := by
    rw [lookupField_normalizeBodyFields_eq _ _ _ _ _ _ _ _ (by decide),
      lookupField_normalizeBodyPreMax_thinking]
  have hte : rule.removeTemperature = true →
      lookupField (normalizeBodyFields sit ccTools u1 u2 rule c1 fs) "temperature"
        = none := fun hrt => by
    rw [lookupField_normalizeBodyFields_eq _ _ _ _ _ _ _ _ (by decide),
      lookupField_normalizeBodyPreMax_temperature _ _ _ _ _ _ _ hrt]
  have hsys : ∃ L, lookupField (normalizeBodyFields sit ccTools u1 u2 rule c1 fs)
      "system" = some (.arr L) ∧ cliSystemRewrite sit L = L := by
    rcases c1 with _ | _
    · refine ⟨genericSystemRewrite sit (normalizeSystemToArray (lookupField fs "system")),
        ?_, ?_⟩
      · rw [lookupField_normalizeBodyFields_eq _ _ _ _ _ _ _ _ (by decide)]
        exact lookupField_normalizeBodyPreMax_system_generic sit ccTools u1 u2 rule fs hreq
      · rw [genericSystemRewrite_no_identity sit _ (hgen rfl)]
        exact cliSystemRewrite_prefix_fix sit hsit _
    · refine ⟨cliSystemRewrite sit (normalizeSystemToArray (lookupField fs "system")),
        ?_, cliSystemRewrite_idem sit hsit _⟩
      rw [lookupField_normalizeBodyFields_eq _ _ _ _ _ _ _ _ (by decide)]
      exact lookupField_normalizeBodyPreMax_system_cli sit ccTools u1 u2 rule fs hreq
  obtain ⟨fsA, hA⟩ := normalizeBodyPreMax_identity_eq sit ccTools u1 u2 rule c1 fs hreq
  have hT1 : ∃ T, lookupField (normalizeBodyFields sit ccTools u1 u2 rule c1 fs)
      "tools" = some (.arr T) ∧ (T.isEmpty = true → T = ccTools) := by
    obtain ⟨T, hTl, hTc⟩ := identityToolsMetadata_tools_shape ccTools u1 u2 fsA
    refine ⟨T, ?_, hTc⟩
    rw [lookupField_normalizeBodyFields_eq _ _ _ _ _ _ _ _ (by decide), hA]
    exact hTl
  have hM1 : ∃ md, lookupField (normalizeBodyFields sit ccTools u1 u2 rule c1 fs)
      "metadata" = some (.obj md) ∧ hasValidUserId md = true := by
    obtain ⟨md, hml, hmv⟩ := identityToolsMetadata_metadata_valid ccTools u1 u2 fsA hb
    refine ⟨md, ?_, hmv⟩
    rw [lookupField_normalizeBodyFields_eq _ _ _ _ _ _ _ _ (by decide), hA]
    exact hml
  have hpre2 : normalizeBodyPreMax sit ccTools u1 u2 rule true
      (normalizeBodyFields sit ccTools u1 u2 rule c1 fs)
      = normalizeBodyFields sit ccTools u1 u2 rule c1 fs :=
    normalizeBodyPreMax_cli_fix sit ccTools u1 u2 rule _ hreq hth hte hsys hT1 hM1
  have hmax : jsTruthyOpt (lookupField (normalizeBodyFields sit ccTools u1 u2 rule c1 fs)
      "max_tokens") = true := normalizeBodyFields_maxTokens_truthy sit ccTools u1 u2 rule c1 fs
  rw [show normalizeBodyFields sit ccTools u1 u2 rule true
        (normalizeBodyFields sit ccTools u1 u2 rule c1 fs)
      = (if jsTruthyOpt (lookupField (normalizeBodyPreMax sit ccTools u1 u2 rule true
            (normalizeBodyFields sit ccTools u1 u2 rule c1 fs)) "max_tokens") = true
         then normalizeBodyPreMax sit ccTools u1 u2 rule true
            (normalizeBodyFields sit ccTools u1 u2 rule c1 fs)
         else setField (normalizeBodyPreMax sit ccTools u1 u2 rule true
            (normalizeBodyFields sit ccTools u1 u2 rule c1 fs))
           "max_tokens" (.num 32000)) from rfl,
    hpre2, if_pos hmax]

set_option maxRecDepth 8192 in
/-- C7 counterexample: a generic (non-CLI) request whose system array already
carries a block bearing the Claude-Code identity prefix is not a fixed point
of the normalizer.  The first pass keeps the client system as-is (generic
path: identity already present) but injects the `claude-code-20250219` beta
flag and the CLI user-agent into the headers, so the second pass is
classified as a CLI request; the CLI path then adds `cache_control` to the
identity block and appends the instructions block, changing the body text. -/
theorem normalizeRequest_not_idempotent_counterexample :
    (normalizeRequest "I" [] "u" "v" "anyrouter.top" []
        (.obj [("model", .str "sonnet"),
               ("system", .arr [.obj [("type", .str "text"),
                                      ("text", .str IDENTITY_TEXT)]])]) "t").normalized
      = true
    ∧ ¬((normalizeRequest "I" [] "u" "v" "anyrouter.top"
          (normalizeRequest "I" [] "u" "v" "anyrouter.top" []
            (.obj [("model", .str "sonnet"),
                   ("system", .arr [.obj [("type", .str "text"),
                                          ("text", .str IDENTITY_TEXT)]])]) "t").headers
          (normalizeRequest "I" [] "u" "v" "anyrouter.top" []
            (.obj [("model", .str "sonnet"),
                   ("system", .arr [.obj [("type", .str "text"),
                                          ("text", .str IDENTITY_TEXT)]])]) "t").body
          "t2").bodyText
        = (normalizeRequest "I" [] "u" "v" "anyrouter.top" []
            (.obj [("model", .str "sonnet"),
                   ("system", .arr [.obj [("type", .str "text"),
                                          ("text", .str IDENTITY_TEXT)]])]) "t").bodyText) := by
  decide

/-- C7 (amended): under the activation guard, with the catalog instructions
text longer than 5000 characters and well-formed session UUIDs (both
guaranteed in production), normalization is idempotent — re-applying
`normalizeRequest` to the headers and body produced by a first application
returns them unchanged (equal header list, equal body, byte-equal body
text) — provided the matched rule does not require the Claude-Code identity,
or the original request is CLI-shaped, or no block of the original system
array already bears the Claude-Code identity prefix.  (The excluded case is
the counterexample: there the first pass leaves the spoofed identity block
without `cache_control` but makes the request CLI-shaped, and the second
pass rewrites it.) -/
theorem normalizeRequest_idempotent (sit : String) (ccTools : List Json)
    (u1 u2 host : String) (h : HMap) (fs : List (String × Json)) (bt bt2 : String)
    (model : String) (rule : ModelRule)
    (hhost : isAnyrouterTarget host = true)
    (hmodel : lookupField fs "model" = some (.str model))
    (hrule : findMatchingRule model = some rule)
    (hsit : 5000 < sit.length)
    (h1 : u1.data.filter (fun c => c ≠ '-') ≠ [])
    (h2 : ∀ c ∈ u1.data.filter (fun c => c ≠ '-'), isHexLower c = true)
    (h3 : u2.data.length = 36)
    (h4 : ∀ c ∈ u2.data, (isHexLower c || c = '-') = true)
    (hside : rule.requireClaudeCodeIdentity = false
      ∨ isClaudeCodeCliRequest h fs = true
      ∨ (normalizeSystemToArray (lookupField fs "system")).any hasClaudeCodeIdentity
          = false) :
    normalizeRequest sit ccTools u1 u2 host
      (normalizeRequest sit ccTools u1 u2 host h (.obj fs) bt).headers
      (normalizeRequest sit ccTools u1 u2 host h (.obj fs) bt).body bt2
      = normalizeRequest sit ccTools u1 u2 host h (.obj fs) bt := by
  have hb : matchesUserIdPattern (buildClaudeCodeUserId u1 u2) = true :=
    matchesUserIdPattern_build u1 u2 h1 h2 h3 h4
  have hrmem : rule ∈ MODEL_RULES := List.mem_of_find?_eq_some hrule
  have hR : ∀ f ∈ rule.requiredBetaFlags,
      0 < f.length ∧ trimStr f = f ∧ ',' ∉ f.data := by
    simp only [List.mem_cons, List.not_mem_nil, or_false, MODEL_RULES] at hrmem
    rcases hrmem with rfl | rfl | rfl <;> decide
  rw [normalizeRequest_normalized sit ccTools u1 u2 host h fs bt model rule
    hhost hmodel hrule]
  dsimp only
  have hmodel1 : lookupField (normalizeBodyFields sit ccTools u1 u2 rule
      (if rule.requireClaudeCodeIdentity = true then isClaudeCodeCliRequest h fs
       else false) fs) "model" = some (.str model) := by
    rw [lookupField_normalizeBodyFields_frame _ _ _ _ _ _ _ _ (by decide) (by decide)
      (by decide) (by decide) (by decide) (by decide)]
    exact hmodel
  rw [normalizeRequest_normalized sit ccTools u1 u2 host
    (normalizeHeadersPipe h rule) _ bt2 model rule hhost hmodel1 hrule]
  have hheads := normalizeHeadersPipe_idem h rule hR
  rcases hreqc : rule.requireClaudeCodeIdentity with _ | _
  · rw [if_neg (show ¬((false : Bool) = true) from by decide),
      if_neg (show ¬((false : Bool) = true) from by decide), hheads,
      normalizeBodyFields_idem_haiku sit ccTools u1 u2 rule false false fs hreqc]
  · have hgen : isClaudeCodeCliRequest h fs = false →
        (normalizeSystemToArray (lookupField fs "system")).any hasClaudeCodeIdentity
          = false := by
      intro hcf
      rcases hside with hf | hcli | hno
      · rw [hreqc] at hf
        cases hf
      · rw [hcli] at hcf
        cases hcf
      · exact hno
    rw [if_pos (show (true : Bool) = true from rfl),
      if_pos (show (true : Bool) = true from rfl)]
    have hc2 : isClaudeCodeCliRequest (normalizeHeadersPipe h rule)
        (normalizeBodyFields sit ccTools u1 u2 rule
          (isClaudeCodeCliRequest h fs) fs) = true :=
      isClaudeCodeCliRequest_of_ua _ _ (ua_cli_after_pipe h rule)
    rw [hc2, hheads,
      normalizeBodyFields_idem_identity sit ccTools u1 u2 rule
        (isClaudeCodeCliRequest h fs) fs hreqc hsit hb hgen]

set_option maxRecDepth 8192 in
/-- Witness for the amended C7 theorem: a concrete sonnet request from a
generic client with a plain string system prompt, a catalog instructions
text of 5001 characters and well-formed session UUIDs. -/
theorem normalizeRequest_idempotent_witness :
    normalizeRequest (String.mk (List.replicate 5001 'a')) []
      "aabbccdd-1122-3344-5566-77889900aabb" "aabbccdd-1122-3344-5566-77889900aabb"
      "anyrouter.top"
      (normalizeRequest (String.mk (List.replicate 5001 'a')) []
        "aabbccdd-1122-3344-5566-77889900aabb" "aabbccdd-1122-3344-5566-77889900aabb"
        "anyrouter.top" []
        (.obj [("model", .str "sonnet"), ("system", .str "Hello")]) "t").headers
      (normalizeRequest (String.mk (List.replicate 5001 'a')) []
        "aabbccdd-1122-3344-5566-77889900aabb" "aabbccdd-1122-3344-5566-77889900aabb"
        "anyrouter.top" []
        (.obj [("model", .str "sonnet"), ("system", .str "Hello")]) "t").body "t2"
      = normalizeRequest (String.mk (List.replicate 5001 'a')) []
        "aabbccdd-1122-3344-5566-77889900aabb" "aabbccdd-1122-3344-5566-77889900aabb"
        "anyrouter.top" []
        (.obj [("model", .str "sonnet"), ("system", .str "Hello")]) "t" :=
  normalizeRequest_idempotent (String.mk (List.replicate 5001 'a')) []
    "aabbccdd-1122-3344-5566-77889900aabb" "aabbccdd-1122-3344-5566-77889900aabb"
    "anyrouter.top" [] [("model", .str "sonnet"), ("system", .str "Hello")] "t" "t2"
    "sonnet"
    { keyword := "sonnet",
      requiredBetaFlags :=
        ["claude-code-20250219", "interleaved-thinking-2025-05-14",
         "prompt-caching-scope-2026-01-05", "effort-2025-11-24",
         "adaptive-thinking-2026-01-28"],
      thinking := some (.obj [("type", .str "adaptive")]),
      removeTemperature := true,
      requireClaudeCodeIdentity := true }
    (by decide) rfl rfl
    (by
      have e1 : (String.mk (List.replicate 5001 'a')).length
          = (List.replicate 5001 'a').length := rfl
      rw [e1, List.length_replicate]
      decide)
    (by decide) (by decide)
    (by decide) (by decide) (Or.inr (Or.inr (by decide)))
